import Mathlib

/-
Verification of the single-image annotation website (app.py / models.py).
The Flask routes are embedded shallowly: the database session is a record of
lists (one list per table, kept in insertion order, as SQLite returns rows),
uuid generation is modelled by a fresh counter, and datetime.utcnow() by a
logical clock that advances once per request.
-/

deriving instance DecidableEq for Except

namespace SingleImageWebsite

/-- ASCII whitespace used by string trimming (models Python str.strip). -/
def isSpaceChar (c : Char) : Bool :=
  c == ' ' || c == '\t' || c == '\n' || c == '\r'

/-- Models Python str.strip(): remove leading and trailing whitespace. -/
def strip (s : String) : String :=
  String.mk ((((s.data.dropWhile isSpaceChar).reverse).dropWhile isSpaceChar).reverse)

/-- The decimal digit character for d < 10. -/
def digitChar (d : Nat) : Char := Char.ofNat (48 + d)

/-- Decimal rendering with explicit fuel (structural recursion so that the
kernel can evaluate it). -/
def natDecAux : Nat → Nat → List Char
  | 0, n => [digitChar (n % 10)]
  | fuel+1, n => if n < 10 then [digitChar n] else natDecAux fuel (n / 10) ++ [digitChar (n % 10)]

/-- Decimal rendering of a natural number, most significant digit first. -/
def natDec (n : Nat) : List Char := natDecAux n n

/-- Models the Python format string f"{idx:06d}": decimal, left padded with
zeros to at least six characters. -/
def pad6 (n : Nat) : String :=
  String.mk (List.replicate (6 - (natDec n).length) '0' ++ natDec n)

/-- Decimal parsing, the left inverse used to prove pad6 injective. -/
def parseDec (l : List Char) : Nat :=
  l.foldl (fun acc c => acc * 10 + (c.toNat - 48)) 0

lemma digitChar_toNat : ∀ d, d < 10 → (digitChar d).toNat = 48 + d := by decide

lemma parseDec_step (l : List Char) (c : Char) (init : Nat) :
    (l ++ [c]).foldl (fun acc c => acc * 10 + (c.toNat - 48)) init
      = (l.foldl (fun acc c => acc * 10 + (c.toNat - 48)) init) * 10 + (c.toNat - 48) := by
  rw [List.foldl_append]
  rfl

lemma parseDec_natDecAux : ∀ fuel n, n < 10 ^ (fuel + 1) →
    parseDec (natDecAux fuel n) = n := by
  intro fuel
  induction fuel with
  | zero =>
    intro n hn
    simp only [zero_add, pow_one] at hn
    simp [natDecAux, parseDec, Nat.mod_eq_of_lt hn, digitChar_toNat n hn]
  | succ fuel ih =>
    intro n hn
    by_cases h : n < 10
    · simp [natDecAux, h, parseDec, digitChar_toNat n h]
    · have hdiv : n / 10 < 10 ^ (fuel + 1) := by
        apply Nat.div_lt_of_lt_mul
        calc n < 10 ^ (fuel + 1 + 1) := hn
        _ = 10 * 10 ^ (fuel + 1) := by ring
      simp only [natDecAux, h, if_false]
      unfold parseDec
      rw [parseDec_step]
      have := ih (n / 10) hdiv
      unfold parseDec at this
      rw [this, digitChar_toNat (n % 10) (Nat.mod_lt n (by norm_num))]
      omega

lemma parseDec_natDec (n : Nat) : parseDec (natDec n) = n := by
  apply parseDec_natDecAux
  calc n < 10 ^ n := Nat.lt_pow_self (by norm_num) n
  _ ≤ 10 ^ (n + 1) := Nat.pow_le_pow_right (by norm_num) (Nat.le_succ n)

lemma parseDec_zeros (k : Nat) (l : List Char) :
    parseDec (List.replicate k '0' ++ l) = parseDec l := by
  induction k with
  | zero => simp
  | succ k ih =>
    unfold parseDec at *
    simpa using ih

lemma pad6_injective : Function.Injective pad6 := by
  intro a b hab
  unfold pad6 at hab
  have hdata : List.replicate (6 - (natDec a).length) '0' ++ natDec a
      = List.replicate (6 - (natDec b).length) '0' ++ natDec b := by
    injection hab
  have := congrArg parseDec hdata
  rwa [parseDec_zeros, parseDec_zeros, parseDec_natDec, parseDec_natDec] at this

/-- Update the first element of the list satisfying p (models fetching a row
with .first() and mutating it in place). -/
def updateFirst (p : α → Bool) (f : α → α) : List α → List α
  | [] => []
  | x :: xs => if p x then f x :: xs else x :: updateFirst p f xs

lemma updateFirst_length (p : α → Bool) (f : α → α) (l : List α) :
    (updateFirst p f l).length = l.length := by
  induction l with
  | nil => rfl
  | cons x xs ih =>
    unfold updateFirst
    by_cases h : p x <;> simp [h, ih]

lemma updateFirst_map (p : α → Bool) (f : α → α) (g : α → β)
    (hg : ∀ x, g (f x) = g x) (l : List α) :
    (updateFirst p f l).map g = l.map g := by
  induction l with
  | nil => rfl
  | cons x xs ih =>
    unfold updateFirst
    by_cases h : p x <;> simp [h, ih, hg]

lemma updateFirst_find? (p : α → Bool) (f : α → α)
    (hp : ∀ x, p (f x) = p x) (l : List α) :
    (updateFirst p f l).find? p = (l.find? p).map f := by
  induction l with
  | nil => rfl
  | cons x xs ih =>
    unfold updateFirst
    by_cases h : p x
    · simp [List.find?_cons, h, hp]
    · simp [List.find?_cons, h, ih]

lemma updateFirst_countP (p q : α → Bool) (f : α → α)
    (hq : ∀ x, q (f x) = q x) (l : List α) :
    (updateFirst p f l).countP q = l.countP q := by
  induction l with
  | nil => rfl
  | cons x xs ih =>
    unfold updateFirst
    by_cases h : p x
    · simp [h, List.countP_cons, hq]
    · simp [h, List.countP_cons, ih]

lemma mem_updateFirst (p : α → Bool) (f : α → α) (l : List α) :
    ∀ y ∈ updateFirst p f l, y ∈ l ∨ ∃ x ∈ l, p x = true ∧ y = f x := by
  induction l with
  | nil => intro y hy; simp [updateFirst] at hy
  | cons x xs ih =>
    intro y hy
    unfold updateFirst at hy
    by_cases h : p x
    · simp [h] at hy
      rcases hy with hy | hy
      · exact Or.inr ⟨x, by simp, h, hy⟩
      · exact Or.inl (by simp [hy])
    · simp [h] at hy
      rcases hy with hy | hy
      · exact Or.inl (by simp [hy])
      · rcases ih y hy with h1 | ⟨x', hx', hpx', hyx'⟩
        · exact Or.inl (by simp [h1])
        · exact Or.inr ⟨x', by simp [hx'], hpx', hyx'⟩

lemma updateFirst_exists_mem (p : α → Bool) (f : α → α) (l : List α)
    (h : ∃ x ∈ l, p x = true) :
    ∃ x ∈ l, p x = true ∧ f x ∈ updateFirst p f l := by
  induction l with
  | nil => simp at h
  | cons y ys ih =>
    by_cases hy : p y
    · exact ⟨y, by simp, hy, by simp [updateFirst, hy]⟩
    · rcases h with ⟨x, hx, hpx⟩
      have hxys : x ∈ ys := by
        rcases List.mem_cons.mp hx with rfl | hmem
        · exact absurd hpx (by simp [hy])
        · exact hmem
      rcases ih ⟨x, hxys, hpx⟩ with ⟨x', hx', hpx', hfx'⟩
      exact ⟨x', by simp [hx'], hpx', by simp [updateFirst, hy, hfx']⟩

/-! ## Data model (models.py)

Row ids produced by generate_uuid are modelled by naturals drawn from a fresh
counter; Image.id stays a string because load_images_from_json formats it
with f"{idx:06d}".  Timestamp columns are naturals read off a logical clock.
Opaque glue columns (password_hash, created_at, original_meta) are omitted. -/

structure Image where
  id : String
  source : String
  image_path : String
  image_url : String
  annotation_count : Nat
deriving Repr, DecidableEq

structure User where
  id : Nat
  username : String
  role : String
deriving Repr, DecidableEq

structure Assignment where
  id : Nat
  user_id : Nat
  image_id : String
  assigned_at : Nat
  completed_at : Option Nat
  status : String
deriving Repr, DecidableEq

structure Annotation where
  id : Nat
  image_id : String
  user_id : Nat
  assignment_id : Nat
  question : Option String
  answer : Option String
  is_approved : Bool
  is_reported : Bool
  annotation_pass : Nat
  annotated_at : Nat
deriving Repr, DecidableEq

/-- The database session: one list per table, rows in insertion order, plus
the uuid counter and the logical clock. -/
structure DB where
  images : List Image
  users : List User
  assignments : List Assignment
  annotations : List Annotation
  ctr : Nat
  now : Nat
deriving Repr, DecidableEq

def initDB : DB := ⟨[], [], [], [], 0, 0⟩

/-- HTTP-level failures of the API routes. -/
inductive ApiError where
  | badRequest
  | notFound
  | forbidden
  | invalidPayload
  | internalError
deriving Repr, DecidableEq

/-! ## Operations (app.py) -/

/-- Body of POST /api/annotate.  The route rejects requests missing image_id
or assignment_id before any of the logic modelled here runs, so the request
record carries all fields (absent question/answer/is_rejected default to
'' / '' / False via data.get). -/
structure AnnotateReq where
  image_id : String
  assignment_id : Nat
  question : String
  answer : String
  is_rejected : Bool
deriving Repr, DecidableEq

/-- Body of POST /api/report. -/
structure ReportReq where
  image_id : String
  assignment_id : Nat
deriving Repr, DecidableEq

/-- The shared tail of save_annotation and report_image: mark the assignment
completed and stamp completed_at (assignment.status = 'completed';
assignment.completed_at = datetime.utcnow()), then the request ends
(db.session.commit()), advancing the logical clock. -/
def completeAssignment (db : DB) (aid : Nat) : DB :=
  { db with
    assignments := updateFirst (fun a => a.id == aid)
      (fun a => { a with status := "completed", completed_at := some db.now }) db.assignments,
    now := db.now + 1 }

/-- The annotation write of save_annotation: update the existing row for this
assignment in place, or insert a fresh row with annotation_pass =
image.annotation_count + 1 and bump image.annotation_count. -/
def annotateWrite (uid : Nat) (asg : Assignment) (q a : String) (approved : Bool)
    (db : DB) : Except ApiError DB :=
  match db.annotations.find? (fun an => an.assignment_id == asg.id) with
  | some _ =>
    let annotations := updateFirst (fun an => an.assignment_id == asg.id)
      (fun an => { an with
        question := if q != "" then some q else none,
        answer := if a != "" then some a else none,
        is_approved := approved,
        is_reported := false,
        annotated_at := db.now }) db.annotations
    .ok (completeAssignment { db with annotations := annotations } asg.id)
  | none =>
    match db.images.find? (fun im => im.id == asg.image_id) with
    | none => .error .internalError
    | some image =>
      let ann : Annotation := {
        id := db.ctr,
        image_id := asg.image_id,
        user_id := uid,
        assignment_id := asg.id,
        question := if q != "" then some q else none,
        answer := if a != "" then some a else none,
        is_approved := approved,
        is_reported := false,
        annotation_pass := image.annotation_count + 1,
        annotated_at := db.now }
      let db' := { db with
        annotations := db.annotations ++ [ann],
        images := updateFirst (fun im => im.id == asg.image_id)
          (fun im => { im with annotation_count := im.annotation_count + 1 }) db.images,
        ctr := db.ctr + 1 }
      .ok (completeAssignment db' asg.id)

/-- POST /api/annotate (save_annotation in app.py). -/
def save_annotation (uid : Nat) (req : AnnotateReq) (db : DB) : Except ApiError DB :=
  match db.assignments.find? (fun a => a.id == req.assignment_id && a.user_id == uid) with
  | none => .error .notFound
  | some asg =>
    let q := strip req.question
    let a := strip req.answer
    if q != "" && a != "" then annotateWrite uid asg q a true db
    else if req.is_rejected then annotateWrite uid asg q a false db
    else .error .invalidPayload

/-- The annotation write of report_image: flip the existing row to reported,
or insert a fresh reported row (question/answer left at their column
defaults, i.e. NULL) with annotation_pass = image.annotation_count + 1. -/
def reportWrite (uid : Nat) (asg : Assignment) (db : DB) : Except ApiError DB :=
  match db.annotations.find? (fun an => an.assignment_id == asg.id) with
  | some _ =>
    let annotations := updateFirst (fun an => an.assignment_id == asg.id)
      (fun an => { an with
        is_reported := true,
        is_approved := false,
        annotated_at := db.now }) db.annotations
    .ok (completeAssignment { db with annotations := annotations } asg.id)
  | none =>
    match db.images.find? (fun im => im.id == asg.image_id) with
    | none => .error .internalError
    | some image =>
      let ann : Annotation := {
        id := db.ctr,
        image_id := asg.image_id,
        user_id := uid,
        assignment_id := asg.id,
        question := none,
        answer := none,
        is_approved := false,
        is_reported := true,
        annotation_pass := image.annotation_count + 1,
        annotated_at := db.now }
      let db' := { db with
        annotations := db.annotations ++ [ann],
        images := updateFirst (fun im => im.id == asg.image_id)
          (fun im => { im with annotation_count := im.annotation_count + 1 }) db.images,
        ctr := db.ctr + 1 }
      .ok (completeAssignment db' asg.id)

/-- POST /api/report (report_image in app.py). -/
def report_image (uid : Nat) (req : ReportReq) (db : DB) : Except ApiError DB :=
  match db.assignments.find? (fun a => a.id == req.assignment_id && a.user_id == uid) with
  | none => .error .notFound
  | some asg => reportWrite uid asg db

/-- GET /api/next_image (get_next_image in app.py): the first pending
assignment of the caller in table order; none models the all_complete
response. -/
def get_next_image (uid : Nat) (db : DB) : Option Assignment :=
  db.assignments.find? (fun a => a.user_id == uid && a.status == "pending")

/-- POST /admin/users/create (admin_create_user in app.py): no-op when the
username is taken, otherwise append the user. -/
def admin_create_user (username role : String) (db : DB) : DB :=
  match db.users.find? (fun u => u.username == username) with
  | some _ => { db with now := db.now + 1 }
  | none =>
    { db with
      users := db.users ++ [{ id := db.ctr, username := username, role := role }],
      ctr := db.ctr + 1,
      now := db.now + 1 }

/-- Images with zero Assignment rows across all users:
Image.query.filter(~Image.id.in_(db.session.query(Assignment.image_id))). -/
def unassignedImages (db : DB) : List Image :=
  db.images.filter (fun im => !(db.assignments.any (fun a => a.image_id == im.id)))

/-- The batch of Assignment rows admin_create_assignments inserts: column
defaults give status 'pending', assigned_at now, completed_at NULL; ids come
from the uuid counter. -/
def mkAssignments (uid : Nat) (t : Nat) : Nat → List Image → List Assignment
  | _, [] => []
  | c, im :: rest =>
    { id := c, user_id := uid, image_id := im.id, assigned_at := t,
      completed_at := none, status := "pending" } :: mkAssignments uid t (c + 1) rest

/-- POST /admin/assignments/create (admin_create_assignments in app.py):
select up to count unassigned images, insert one pending Assignment each for
user_id, and report the number created. -/
def admin_create_assignments (user_id : Nat) (count : Nat) (db : DB) :
    Except ApiError (DB × Nat) :=
  match db.users.find? (fun u => u.id == user_id) with
  | none => .error .notFound
  | some _ =>
    let selected := (unassignedImages db).take count
    .ok ({ db with
      assignments := db.assignments ++ mkAssignments user_id db.now db.ctr selected,
      ctr := db.ctr + selected.length,
      now := db.now + 1 }, selected.length)

/-! ## Statistics (GET /api/stats) -/

/-- Round-half-to-even to an integer, the rule used by Python round();
exact rationals stand in for the route's floating-point arithmetic. -/
def roundHalfEven (q : ℚ) : ℤ :=
  if q - ⌊q⌋ < 1/2 then ⌊q⌋
  else if 1/2 < q - ⌊q⌋ then ⌊q⌋ + 1
  else if ⌊q⌋ % 2 = 0 then ⌊q⌋ else ⌊q⌋ + 1

/-- Models Python round(x, 1). -/
def round1 (q : ℚ) : ℚ := (roundHalfEven (10 * q) : ℚ) / 10

structure Stats where
  total_images : Nat
  approved_images : Nat
  rejected_images : Nat
  reported_images : Nat
  progress_percentage : ℚ
deriving Repr, DecidableEq

/-- The admin branch of get_stats. -/
def adminStats (db : DB) : Stats :=
  let total_images := db.images.length
  let total_annotations := db.annotations.countP (fun an => an.is_approved == true)
  let total_rejected :=
    db.annotations.countP (fun an => an.is_approved == false && an.is_reported == false)
  let total_reported := db.annotations.countP (fun an => an.is_reported == true)
  { total_images := total_images,
    approved_images := total_annotations,
    rejected_images := total_rejected,
    reported_images := total_reported,
    progress_percentage :=
      if 0 < total_images then
        round1 (((total_annotations : ℚ) + total_rejected + total_reported) / total_images * 100)
      else 0 }

/-- The annotator branch of get_stats. -/
def userStats (db : DB) (uid : Nat) : Stats :=
  let total_assigned := db.assignments.countP (fun a => a.user_id == uid)
  let completed :=
    db.assignments.countP (fun a => a.user_id == uid && a.status == "completed")
  { total_images := total_assigned,
    approved_images := completed,
    rejected_images := 0,
    reported_images := 0,
    progress_percentage :=
      if 0 < total_assigned then round1 ((completed : ℚ) / total_assigned * 100) else 0 }

/-- GET /api/stats (get_stats in app.py), dispatching on current_user.is_admin(). -/
def get_stats (db : DB) (u : User) : Stats :=
  if u.role == "admin" then adminStats db else userStats db u.id

/-! ## Export (GET /admin/download) -/

structure ExportRow where
  image_id : String
  image_url : String
  image_path : String
  source : String
  question : Option String
  answer : Option String
  is_approved : Bool
  is_reported : Bool
  annotated_at : Nat
  username : String
  annotation_pass : Nat
deriving Repr, DecidableEq

/-- The Annotation-Image-User inner join of admin_download_annotations. -/
def joinedRows (db : DB) : List ( Annotation × Image × User) :=
  db.annotations.filterMap (fun ann =>
    match db.images.find? (fun im => im.id == ann.image_id),
          db.users.find? (fun u => u.id == ann.user_id) with
    | some img, some u => some (ann, img, u)
    | _, _ => none)

/-- GET /admin/download (admin_download_annotations in app.py); user_filter
none models the query value 'all'. -/
def admin_download_annotations (status_filter : String) (user_filter : Option Nat)
    (db : DB) : List ExportRow :=
  let rows : List ( Annotation × Image × User) := joinedRows db
  let rows : List ( Annotation × Image × User) :=
    if status_filter == "approved" then rows.filter (fun t => t.1.is_approved == true)
    else if status_filter == "rejected" then
      rows.filter (fun t => t.1.is_approved == false && t.1.is_reported == false)
    else if status_filter == "reported" then rows.filter (fun t => t.1.is_reported == true)
    else rows
  let rows : List ( Annotation × Image × User) :=
    match user_filter with
    | some uf => rows.filter (fun t => t.1.user_id == uf)
    | none => rows
  rows.map (fun t =>
    { image_id := t.2.1.id,
      image_url := t.2.1.image_url,
      image_path := t.2.1.image_path,
      source := t.2.1.source,
      question := t.1.question,
      answer := t.1.answer,
      is_approved := t.1.is_approved,
      is_reported := t.1.is_reported,
      annotated_at := t.1.annotated_at,
      username := t.2.2.username,
      annotation_pass := t.1.annotation_pass })

/-! ## Seed loading (load_images_from_json) -/

/-- One element of the seed document's images array: either a JSON object,
from which the loader reads only image_url (img.get with default ''), or a
malformed entry on which img.get raises. -/
inductive SeedEntry where
  | entry (image_url : Option String)
  | malformed
deriving Repr, DecidableEq

structure SeedDoc where
  images : List SeedEntry
  flickr_url : Option String
deriving Repr, DecidableEq

/-- The images.json file: missing, unparseable by json.load, or a document. -/
inductive SeedFile where
  | absent
  | malformed
  | doc (d : SeedDoc)
deriving Repr, DecidableEq

/-- Failures of the seed loader: an exception escaping json.load, or one
escaping the per-entry loop (both abort before db.session.commit()). -/
inductive LoadErr where
  | malformedDocument
  | malformedEntry
deriving Repr, DecidableEq

/-- The loader's loop over data.get('images', []): ids are f"{idx:06d}" in
input order; a malformed entry raises and aborts the whole load. -/
def buildImages (srcName : String) : Nat → List SeedEntry → Except LoadErr (List Image)
  | _, [] => .ok []
  | _, SeedEntry.malformed :: _ => .error .malformedEntry
  | idx, SeedEntry.entry u :: rest =>
    match buildImages srcName (idx + 1) rest with
    | .error e => .error e
    | .ok others =>
      .ok ({ id := pad6 idx, source := srcName, image_path := u.getD "",
             image_url := u.getD "", annotation_count := 0 } :: others)

/-- load_images_from_json in app.py: silently return when the file is
missing or when images already exist; otherwise parse and insert. -/
def load_images_from_json (f : SeedFile) (db : DB) : Except LoadErr DB :=
  match f with
  | .absent => .ok { db with now := db.now + 1 }
  | .malformed =>
    if 0 < db.images.length then .ok { db with now := db.now + 1 }
    else .error .malformedDocument
  | .doc d =>
    if 0 < db.images.length then .ok { db with now := db.now + 1 }
    else
      match buildImages (d.flickr_url.getD "unknown") 0 d.images with
      | .error e => .error e
      | .ok imgs => .ok { db with images := imgs, now := db.now + 1 }

/-! ## Reachable states -/

/-- One state-changing request against the database.  Read-only routes are
omitted; failed requests roll back and leave the state unchanged. -/
inductive Step : DB → DB → Prop
  | load (f : SeedFile) (db db' : DB) :
      load_images_from_json f db = .ok db' → Step db db'
  | createUser (username role : String) (db db' : DB) :
      admin_create_user username role db = db' → Step db db'
  | bulkAssign (uid count : Nat) (db db' : DB) (c : Nat) :
      admin_create_assignments uid count db = .ok (db', c) → Step db db'
  | annotate (uid : Nat) (req : AnnotateReq) (db db' : DB) :
      save_annotation uid req db = .ok db' → Step db db'
  | report (uid : Nat) (req : ReportReq) (db db' : DB) :
      report_image uid req db = .ok db' → Step db db'

/-- States reachable from the freshly created database. -/
def Reachable (db : DB) : Prop := Relation.ReflTransGen Step initDB db

/-- The inductive invariant of the database. -/
structure Inv (db : DB) : Prop where
  annNodup : (db.annotations.map (fun an => an.assignment_id)).Nodup
  annHasAsg : ∀ ann ∈ db.annotations, ann.assignment_id ∈ db.assignments.map (fun a => a.id)
  asgImgNodup : (db.assignments.map (fun a => a.image_id)).Nodup
  asgHasImg : ∀ a ∈ db.assignments, a.image_id ∈ db.images.map (fun im => im.id)
  imgNodup : (db.images.map (fun im => im.id)).Nodup
  flags : ∀ ann ∈ db.annotations, ann.is_approved = true → ann.is_reported = false
  asgTimeLt : ∀ a ∈ db.assignments, a.assigned_at < db.now
  asgSorted : (db.assignments.map (fun a => a.assigned_at)).Pairwise (· ≤ ·)

lemma inv_initDB : Inv initDB := by
  constructor <;> simp [initDB]

lemma inv_completeAssignment (db : DB) (aid : Nat) (hinv : Inv db) :
    Inv (completeAssignment db aid) := by
  have hid : ∀ x : Assignment,
      ({ x with status := "completed", completed_at := some db.now } : Assignment).id = x.id :=
    fun _ => rfl
  have himg : ∀ x : Assignment,
      ({ x with status := "completed", completed_at := some db.now } : Assignment).image_id
        = x.image_id := fun _ => rfl
  have htime : ∀ x : Assignment,
      ({ x with status := "completed", completed_at := some db.now } : Assignment).assigned_at
        = x.assigned_at := fun _ => rfl
  constructor
  · exact hinv.annNodup
  · intro ann hann
    have := hinv.annHasAsg ann hann
    simpa [completeAssignment, updateFirst_map _ _ _ hid] using this
  · simpa [completeAssignment, updateFirst_map _ _ _ himg] using hinv.asgImgNodup
  · intro a ha
    simp only [completeAssignment] at ha
    rcases mem_updateFirst _ _ _ a ha with hmem | ⟨x, hx, _, rfl⟩
    · simpa [completeAssignment] using hinv.asgHasImg a hmem
    · simpa [completeAssignment, himg] using hinv.asgHasImg x hx
  · exact hinv.imgNodup
  · exact hinv.flags
  · intro a ha
    simp only [completeAssignment] at ha ⊢
    rcases mem_updateFirst _ _ _ a ha with hmem | ⟨x, hx, _, rfl⟩
    · exact Nat.lt_succ_of_lt (hinv.asgTimeLt a hmem)
    · exact Nat.lt_succ_of_lt (hinv.asgTimeLt x hx)
  · simpa [completeAssignment, updateFirst_map _ _ _ htime] using hinv.asgSorted

lemma inv_updateAnn (db : DB) (aid : Nat) (hinv : Inv db)
    (f : Annotation → Annotation)
    (hf_id : ∀ x, (f x).assignment_id = x.assignment_id)
    (hf_flag : ∀ x, (f x).is_approved = true → (f x).is_reported = false) :
    Inv { db with
      annotations := updateFirst (fun an => an.assignment_id == aid) f db.annotations } := by
  constructor
  · simpa [updateFirst_map _ _ _ hf_id] using hinv.annNodup
  · intro ann hann
    simp only at hann
    rcases mem_updateFirst _ _ _ ann hann with hmem | ⟨x, hx, _, rfl⟩
    · exact hinv.annHasAsg ann hmem
    · simpa [hf_id] using hinv.annHasAsg x hx
  · exact hinv.asgImgNodup
  · exact hinv.asgHasImg
  · exact hinv.imgNodup
  · intro ann hann
    simp only at hann
    rcases mem_updateFirst _ _ _ ann hann with hmem | ⟨x, hx, _, rfl⟩
    · exact hinv.flags ann hmem
    · exact hf_flag x
  · exact hinv.asgTimeLt
  · exact hinv.asgSorted

lemma inv_insertAnn (db : DB) (asg : Assignment) (hinv : Inv db)
    (hasg : asg ∈ db.assignments)
    (hnone : db.annotations.find? (fun an => an.assignment_id == asg.id) = none)
    (ann : Annotation) (hann_aid : ann.assignment_id = asg.id)
    (hflag : ann.is_approved = true → ann.is_reported = false)
    (g : Image → Image) (hg : ∀ im, (g im).id = im.id)
    (p : Image → Bool) (c : Nat) :
    Inv { db with
      annotations := db.annotations ++ [ann],
      images := updateFirst p g db.images,
      ctr := c } := by
  have hnotin : asg.id ∉ db.annotations.map (fun an => an.assignment_id) := by
    intro hmem
    rcases List.mem_map.mp hmem with ⟨x, hx, hxid⟩
    have := List.find?_eq_none.mp hnone x hx
    simp [hxid] at this
  constructor
  · simp only [List.map_append, List.map_cons, List.map_nil]
    refine hinv.annNodup.append (by simp) ?_
    intro v hv hv2
    simp [hann_aid] at hv2
    exact hnotin (hv2 ▸ hv)
  · intro a ha
    simp only [List.mem_append, List.mem_singleton] at ha
    rcases ha with hmem | rfl
    · exact hinv.annHasAsg a hmem
    · rw [hann_aid]
      exact List.mem_map.mpr ⟨asg, hasg, rfl⟩
  · exact hinv.asgImgNodup
  · intro a ha
    simpa [updateFirst_map _ _ _ hg] using hinv.asgHasImg a ha
  · simpa [updateFirst_map _ _ _ hg] using hinv.imgNodup
  · intro a ha
    simp only [List.mem_append, List.mem_singleton] at ha
    rcases ha with hmem | rfl
    · exact hinv.flags a hmem
    · exact hflag
  · exact hinv.asgTimeLt
  · exact hinv.asgSorted

lemma inv_annotateWrite (db db' : DB) (uid : Nat) (asg : Assignment)
    (q a : String) (approved : Bool) (hinv : Inv db) (hasg : asg ∈ db.assignments)
    (hok : annotateWrite uid asg q a approved db = .ok db') : Inv db' := by
  unfold annotateWrite at hok
  cases hfind : db.annotations.find? (fun an => an.assignment_id == asg.id) with
  | some existing =>
    rw [hfind] at hok
    simp only [Except.ok.injEq] at hok
    subst hok
    exact inv_completeAssignment _ _
      (inv_updateAnn db asg.id hinv _ (fun x => rfl) (fun x _ => rfl))
  | none =>
    rw [hfind] at hok
    cases hfimg : db.images.find? (fun im => im.id == asg.image_id) with
    | none => rw [hfimg] at hok; exact absurd hok (by simp)
    | some image =>
      rw [hfimg] at hok
      simp only [Except.ok.injEq] at hok
      subst hok
      refine inv_completeAssignment _ _ ?_
      exact inv_insertAnn db asg hinv hasg hfind _ rfl (fun _ => rfl)
        (fun im => { im with annotation_count := im.annotation_count + 1 }) (fun im => rfl)
        (fun im => im.id == asg.image_id) (db.ctr + 1)

lemma inv_reportWrite (db db' : DB) (uid : Nat) (asg : Assignment)
    (hinv : Inv db) (hasg : asg ∈ db.assignments)
    (hok : reportWrite uid asg db = .ok db') : Inv db' := by
  unfold reportWrite at hok
  cases hfind : db.annotations.find? (fun an => an.assignment_id == asg.id) with
  | some existing =>
    rw [hfind] at hok
    simp only [Except.ok.injEq] at hok
    subst hok
    exact inv_completeAssignment _ _
      (inv_updateAnn db asg.id hinv _ (fun x => rfl) (fun x h => (Bool.false_ne_true h).elim))
  | none =>
    rw [hfind] at hok
    cases hfimg : db.images.find? (fun im => im.id == asg.image_id) with
    | none => rw [hfimg] at hok; exact absurd hok (by simp)
    | some image =>
      rw [hfimg] at hok
      simp only [Except.ok.injEq] at hok
      subst hok
      refine inv_completeAssignment _ _ ?_
      exact inv_insertAnn db asg hinv hasg hfind _ rfl (fun h => (Bool.false_ne_true h).elim)
        (fun im => { im with annotation_count := im.annotation_count + 1 }) (fun im => rfl)
        (fun im => im.id == asg.image_id) (db.ctr + 1)

/-- Unpack a successful save_annotation call. -/
lemma save_annotation_ok (uid : Nat) (req : AnnotateReq) (db db' : DB)
    (h : save_annotation uid req db = .ok db') :
    ∃ asg, db.assignments.find? (fun a => a.id == req.assignment_id && a.user_id == uid)
        = some asg
      ∧ ∃ approved, annotateWrite uid asg (strip req.question) (strip req.answer) approved db
        = .ok db' := by
  unfold save_annotation at h
  cases hfind : db.assignments.find? (fun a => a.id == req.assignment_id && a.user_id == uid) with
  | none => rw [hfind] at h; exact absurd h (by simp)
  | some asg =>
    rw [hfind] at h
    simp only at h
    by_cases hqa : (strip req.question != "" && strip req.answer != "") = true
    · rw [if_pos hqa] at h
      exact ⟨asg, rfl, true, h⟩
    · rw [if_neg hqa] at h
      by_cases hrej : req.is_rejected = true
      · rw [if_pos hrej] at h
        exact ⟨asg, rfl, false, h⟩
      · rw [if_neg hrej] at h
        exact absurd h (by simp)

lemma inv_save_annotation (uid : Nat) (req : AnnotateReq) (db db' : DB)
    (hinv : Inv db) (h : save_annotation uid req db = .ok db') : Inv db' := by
  rcases save_annotation_ok uid req db db' h with ⟨asg, hfind, approved, hw⟩
  exact inv_annotateWrite db db' uid asg _ _ approved hinv
    (List.mem_of_find?_eq_some hfind) hw

lemma inv_report_image (uid : Nat) (req : ReportReq) (db db' : DB)
    (hinv : Inv db) (h : report_image uid req db = .ok db') : Inv db' := by
  unfold report_image at h
  cases hfind : db.assignments.find? (fun a => a.id == req.assignment_id && a.user_id == uid) with
  | none => rw [hfind] at h; exact absurd h (by simp)
  | some asg =>
    rw [hfind] at h
    exact inv_reportWrite db db' uid asg hinv (List.mem_of_find?_eq_some hfind) h

lemma inv_admin_create_user (username role : String) (db : DB) (hinv : Inv db) :
    Inv (admin_create_user username role db) := by
  unfold admin_create_user
  cases db.users.find? (fun u => u.username == username) with
  | some _ =>
    constructor <;>
      first
        | exact hinv.annNodup
        | exact hinv.annHasAsg
        | exact hinv.asgImgNodup
        | exact hinv.asgHasImg
        | exact hinv.imgNodup
        | exact hinv.flags
        | exact hinv.asgSorted
        | exact fun a ha => Nat.lt_succ_of_lt (hinv.asgTimeLt a ha)
  | none =>
    constructor <;>
      first
        | exact hinv.annNodup
        | exact hinv.annHasAsg
        | exact hinv.asgImgNodup
        | exact hinv.asgHasImg
        | exact hinv.imgNodup
        | exact hinv.flags
        | exact hinv.asgSorted
        | exact fun a ha => Nat.lt_succ_of_lt (hinv.asgTimeLt a ha)

lemma pairwise_le_replicate (n t : Nat) :
    (List.replicate n t).Pairwise (fun x y => x ≤ y) := by
  induction n with
  | zero => simp
  | succ n ih =>
    rw [List.replicate_succ]
    exact List.Pairwise.cons (fun y hy => le_of_eq (List.eq_of_mem_replicate hy).symm) ih

lemma mkAssignments_length (uid t : Nat) :
    ∀ (c : Nat) (l : List Image), (mkAssignments uid t c l).length = l.length := by
  intro c l
  induction l generalizing c with
  | nil => rfl
  | cons im rest ih => simp [mkAssignments, ih]

lemma mkAssignments_map_image_id (uid t : Nat) :
    ∀ (c : Nat) (l : List Image),
      (mkAssignments uid t c l).map (fun a => a.image_id) = l.map (fun im => im.id) := by
  intro c l
  induction l generalizing c with
  | nil => rfl
  | cons im rest ih => simp [mkAssignments, ih]

lemma mkAssignments_map_assigned_at (uid t : Nat) :
    ∀ (c : Nat) (l : List Image),
      (mkAssignments uid t c l).map (fun a => a.assigned_at) = List.replicate l.length t := by
  intro c l
  induction l generalizing c with
  | nil => rfl
  | cons im rest ih => simp [mkAssignments, ih, List.replicate_succ]

lemma mkAssignments_mem (uid t : Nat) :
    ∀ (c : Nat) (l : List Image), ∀ a ∈ mkAssignments uid t c l,
      a.status = "pending" ∧ a.user_id = uid ∧ a.assigned_at = t ∧ a.completed_at = none
        ∧ ∃ im ∈ l, a.image_id = im.id := by
  intro c l
  induction l generalizing c with
  | nil => intro a ha; simp [mkAssignments] at ha
  | cons im rest ih =>
    intro a ha
    simp only [mkAssignments, List.mem_cons] at ha
    rcases ha with rfl | ha
    · exact ⟨rfl, rfl, rfl, rfl, im, by simp⟩
    · rcases ih (c + 1) a ha with ⟨h1, h2, h3, h4, im', him', h5⟩
      exact ⟨h1, h2, h3, h4, im', by simp [him'], h5⟩

/-- The images selected by the bulk-assignment query are a sublist of the
catalog. -/
lemma selected_sublist (db : DB) (count : Nat) :
    ((unassignedImages db).take count).Sublist db.images :=
  ((unassignedImages db).take_sublist count).trans (List.filter_sublist db.images)

lemma inv_admin_create_assignments (user_id count : Nat) (db db' : DB) (c : Nat)
    (hinv : Inv db) (h : admin_create_assignments user_id count db = .ok (db', c)) :
    Inv db' := by
  unfold admin_create_assignments at h
  cases hfind : db.users.find? (fun u => u.id == user_id) with
  | none => rw [hfind] at h; exact absurd h (by simp)
  | some u =>
    rw [hfind] at h
    simp only [Except.ok.injEq, Prod.mk.injEq] at h
    obtain ⟨rfl, rfl⟩ := h
    have hsub := selected_sublist db count
    have hsubid : ((unassignedImages db).take count).map (fun im => im.id)
        |>.Sublist (db.images.map (fun im => im.id)) := hsub.map _
    constructor
    · exact hinv.annNodup
    · intro ann hann
      simp only [List.map_append]
      exact List.mem_append_left _ (hinv.annHasAsg ann hann)
    · simp only [List.map_append, mkAssignments_map_image_id]
      refine hinv.asgImgNodup.append (hinv.imgNodup.sublist hsubid) ?_
      intro v hv hv2
      rcases List.mem_map.mp hv with ⟨a, ha, rfl⟩
      rcases List.mem_map.mp hv2 with ⟨im, him, himid⟩
      have him2 : im ∈ unassignedImages db := List.mem_of_mem_take him
      unfold unassignedImages at him2
      have hfa := (List.mem_filter.mp him2).2
      rw [Bool.not_eq_true', List.any_eq_false] at hfa
      have hcon := hfa a ha
      rw [himid] at hcon
      simp at hcon
    · intro a ha
      rcases List.mem_append.mp ha with hmem | hmem
      · exact hinv.asgHasImg a hmem
      · rcases (mkAssignments_mem _ _ _ _ a hmem).2.2.2.2 with ⟨im, him, himid⟩
        rw [himid]
        exact hsubid.subset (List.mem_map.mpr ⟨im, him, rfl⟩)
    · exact hinv.imgNodup
    · exact hinv.flags
    · intro a ha
      rcases List.mem_append.mp ha with hmem | hmem
      · exact Nat.lt_succ_of_lt (hinv.asgTimeLt a hmem)
      · rw [(mkAssignments_mem _ _ _ _ a hmem).2.2.1]
        exact Nat.lt_succ_self _
    · simp only [List.map_append, mkAssignments_map_assigned_at]
      rw [List.pairwise_append]
      refine ⟨hinv.asgSorted, pairwise_le_replicate _ _, ?_⟩
      intro x hx y hy
      rcases List.mem_map.mp hx with ⟨a, ha, rfl⟩
      have := hinv.asgTimeLt a ha
      have hy2 := List.eq_of_mem_replicate hy
      omega

lemma buildImages_map_id (srcName : String) :
    ∀ (entries : List SeedEntry) (idx : Nat) (imgs : List Image),
      buildImages srcName idx entries = .ok imgs →
      imgs.map (fun im => im.id) = (List.range entries.length).map (fun i => pad6 (idx + i)) := by
  intro entries
  induction entries with
  | nil =>
    intro idx imgs h
    simp only [buildImages, Except.ok.injEq] at h
    subst h
    rfl
  | cons e rest ih =>
    intro idx imgs h
    cases e with
    | malformed => exact absurd h (by simp [buildImages])
    | entry u =>
      simp only [buildImages] at h
      cases hrest : buildImages srcName (idx + 1) rest with
      | error e2 => rw [hrest] at h; exact absurd h (by simp)
      | ok others =>
        rw [hrest] at h
        simp only [Except.ok.injEq] at h
        subst h
        simp only [List.map_cons, List.length_cons]
        rw [ih (idx + 1) others hrest, List.range_succ_eq_map, List.map_cons, List.map_map]
        refine List.cons_eq_cons.mpr ⟨by norm_num, ?_⟩
        apply List.map_congr_left
        intro i _
        simp only [Function.comp_apply]
        congr 1
        omega

lemma buildImages_annotation_count (srcName : String) :
    ∀ (entries : List SeedEntry) (idx : Nat) (imgs : List Image),
      buildImages srcName idx entries = .ok imgs →
      ∀ im ∈ imgs, im.annotation_count = 0 := by
  intro entries
  induction entries with
  | nil =>
    intro idx imgs h
    simp only [buildImages, Except.ok.injEq] at h
    subst h
    simp
  | cons e rest ih =>
    intro idx imgs h
    cases e with
    | malformed => exact absurd h (by simp [buildImages])
    | entry u =>
      simp only [buildImages] at h
      cases hrest : buildImages srcName (idx + 1) rest with
      | error e2 => rw [hrest] at h; exact absurd h (by simp)
      | ok others =>
        rw [hrest] at h
        simp only [Except.ok.injEq] at h
        subst h
        intro im him
        rcases List.mem_cons.mp him with rfl | him2
        · rfl
        · exact ih (idx + 1) others hrest im him2

lemma inv_load (f : SeedFile) (db db' : DB) (hinv : Inv db)
    (h : load_images_from_json f db = .ok db') : Inv db' := by
  have hbump : Inv { db with now := db.now + 1 } := by
    constructor <;>
      first
        | exact hinv.annNodup
        | exact hinv.annHasAsg
        | exact hinv.asgImgNodup
        | exact hinv.asgHasImg
        | exact hinv.imgNodup
        | exact hinv.flags
        | exact hinv.asgSorted
        | exact fun a ha => Nat.lt_succ_of_lt (hinv.asgTimeLt a ha)
  cases f with
  | absent =>
    simp only [load_images_from_json, Except.ok.injEq] at h
    subst h; exact hbump
  | malformed =>
    simp only [load_images_from_json] at h
    by_cases hlen : 0 < db.images.length
    · rw [if_pos hlen] at h
      simp only [Except.ok.injEq] at h
      subst h; exact hbump
    · rw [if_neg hlen] at h
      exact absurd h (by simp)
  | doc d =>
    simp only [load_images_from_json] at h
    by_cases hlen : 0 < db.images.length
    · rw [if_pos hlen] at h
      simp only [Except.ok.injEq] at h
      subst h; exact hbump
    · rw [if_neg hlen] at h
      have hempty : db.images = [] := by
        cases hi : db.images with
        | nil => rfl
        | cons x xs => rw [hi] at hlen; simp at hlen
      cases hbuild : buildImages (d.flickr_url.getD "unknown") 0 d.images with
      | error e => rw [hbuild] at h; exact absurd h (by simp)
      | ok imgs =>
        rw [hbuild] at h
        simp only [Except.ok.injEq] at h
        subst h
        have hasgnil : db.assignments = [] := by
          rcases hasg : db.assignments with _ | ⟨a, rest⟩
          · rfl
          · exfalso
            have := hinv.asgHasImg a (by rw [hasg]; simp)
            rw [hempty] at this
            simp at this
        have hannnil : db.annotations = [] := by
          rcases hann : db.annotations with _ | ⟨an, rest⟩
          · rfl
          · exfalso
            have := hinv.annHasAsg an (by rw [hann]; simp)
            rw [hasgnil] at this
            simp at this
        constructor
        · rw [hannnil]; simp
        · intro ann hann; rw [hannnil] at hann; simp at hann
        · rw [hasgnil]; simp
        · intro a ha; rw [hasgnil] at ha; simp at ha
        · rw [buildImages_map_id _ _ _ _ hbuild]
          refine List.Nodup.map ?_ (List.nodup_range _)
          intro i j hij
          simpa using pad6_injective hij
        · intro ann hann; rw [hannnil] at hann; simp at hann
        · intro a ha; rw [hasgnil] at ha; simp at ha
        · rw [hasgnil]; simp

/-- Every single request preserves the invariant. -/
lemma inv_step (x y : DB) (h : Step x y) (hinv : Inv x) : Inv y := by
  cases h with
  | load f _ _ hop => exact inv_load f x y hinv hop
  | createUser username role _ _ hop =>
      exact hop ▸ inv_admin_create_user username role x hinv
  | bulkAssign uid count _ _ c hop =>
      exact inv_admin_create_assignments uid count x y c hinv hop
  | annotate uid req _ _ hop => exact inv_save_annotation uid req x y hinv hop
  | report uid req _ _ hop => exact inv_report_image uid req x y hinv hop

/-- Every reachable database state satisfies the inductive invariant. -/
lemma reachable_inv (db : DB) (h : Reachable db) : Inv db := by
  unfold Reachable at h
  induction h with
  | refl => exact inv_initDB
  | tail hstep hlast ih => exact inv_step _ _ hlast ih

/-! ## Counting consequences of the invariant -/

lemma annotations_le_images (db : DB) (hinv : Inv db) :
    db.annotations.length ≤ db.images.length := by
  have h1 : db.annotations.length ≤ db.assignments.length := by
    have hsub : (db.annotations.map (fun an => an.assignment_id))
        ⊆ (db.assignments.map (fun a => a.id)) := by
      intro v hv
      rcases List.mem_map.mp hv with ⟨ann, hann, rfl⟩
      exact hinv.annHasAsg ann hann
    have := (List.subperm_of_subset hinv.annNodup hsub).length_le
    simpa using this
  have h2 : db.assignments.length ≤ db.images.length := by
    have hsub : (db.assignments.map (fun a => a.image_id))
        ⊆ (db.images.map (fun im => im.id)) := by
      intro v hv
      rcases List.mem_map.mp hv with ⟨a, ha, rfl⟩
      exact hinv.asgHasImg a ha
    have := (List.subperm_of_subset hinv.asgImgNodup hsub).length_le
    simpa using this
  omega

/-- With the approved-implies-not-reported invariant, the three stats
categories partition the annotation rows. -/
lemma countP_partition (l : List Annotation)
    (h : ∀ x ∈ l, x.is_approved = true → x.is_reported = false) :
    l.countP (fun an => an.is_approved == true)
      + l.countP (fun an => an.is_approved == false && an.is_reported == false)
      + l.countP (fun an => an.is_reported == true) = l.length := by
  induction l with
  | nil => rfl
  | cons x xs ih =>
    have hx := h x (by simp)
    have hxs : ∀ y ∈ xs, y.is_approved = true → y.is_reported = false :=
      fun y hy => h y (by simp [hy])
    have ihx := ih hxs
    cases ha : x.is_approved with
    | true =>
      have hrep := hx ha
      rw [List.countP_cons_of_pos _ _ (by simp [ha]),
          List.countP_cons_of_neg _ _ (by simp [ha]),
          List.countP_cons_of_neg _ _ (by simp [hrep]),
          List.length_cons]
      omega
    | false =>
      cases hr : x.is_reported with
      | true =>
        rw [List.countP_cons_of_neg _ _ (by simp [ha]),
            List.countP_cons_of_neg _ _ (by simp [ha, hr]),
            List.countP_cons_of_pos _ _ (by simp [hr]),
            List.length_cons]
        omega
      | false =>
        rw [List.countP_cons_of_neg _ _ (by simp [ha]),
            List.countP_cons_of_pos _ _ (by simp [ha, hr]),
            List.countP_cons_of_neg _ _ (by simp [hr]),
            List.length_cons]
        omega

/-! ## Rounding bounds -/

lemma roundHalfEven_nonneg (q : ℚ) (h : 0 ≤ q) : 0 ≤ roundHalfEven q := by
  have h0 : (0 : ℤ) ≤ ⌊q⌋ := Int.floor_nonneg.mpr h
  unfold roundHalfEven
  split_ifs <;> omega

lemma roundHalfEven_le (q : ℚ) (c : ℤ) (h : q ≤ c) : roundHalfEven q ≤ c := by
  have hfl : ⌊q⌋ ≤ c := by
    have := Int.floor_le_floor (α := ℚ) h
    rwa [Int.floor_intCast] at this
  have hq : (⌊q⌋ : ℚ) ≤ q := Int.floor_le q
  have key : ¬(q - ⌊q⌋ < 1/2) → ⌊q⌋ + 1 ≤ c := by
    intro hn
    rcases lt_or_eq_of_le hfl with hlt | heq
    · omega
    · exfalso
      have hqle : q ≤ (⌊q⌋ : ℚ) := by
        rw [heq]
        exact_mod_cast h
      apply hn
      linarith
  unfold roundHalfEven
  split_ifs with h1 h2 h3
  · exact hfl
  · exact key h1
  · exact hfl
  · exact key h1

lemma round1_nonneg (q : ℚ) (h : 0 ≤ q) : 0 ≤ round1 q := by
  unfold round1
  apply div_nonneg _ (by norm_num)
  have : (0 : ℤ) ≤ roundHalfEven (10 * q) :=
    roundHalfEven_nonneg _ (by linarith)
  exact_mod_cast this

lemma round1_le_100 (q : ℚ) (h : q ≤ 100) : round1 q ≤ 100 := by
  unfold round1
  rw [div_le_iff₀ (by norm_num : (0:ℚ) < 10)]
  have : roundHalfEven (10 * q) ≤ (1000 : ℤ) := roundHalfEven_le _ _ (by push_cast; linarith)
  have h2 : ((roundHalfEven (10 * q) : ℤ) : ℚ) ≤ 1000 := by exact_mod_cast this
  linarith

lemma ratio_nonneg (s t : Nat) : 0 ≤ ((s : ℚ) / t) * 100 := by positivity

lemma ratio_le_100 (s t : Nat) (hst : s ≤ t) (ht : 0 < t) : ((s : ℚ) / t) * 100 ≤ 100 := by
  have h1 : (s : ℚ) ≤ t := by exact_mod_cast hst
  have h2 : (0 : ℚ) < t := by exact_mod_cast ht
  have : (s : ℚ) / t ≤ 1 := (div_le_one h2).mpr h1
  linarith

/-! ## Further helper lemmas -/

lemma countP_beq_eq_one (l : List Annotation)
    (hnd : (l.map (fun an => an.assignment_id)).Nodup) (v : Nat)
    (hex : ∃ x ∈ l, x.assignment_id = v) :
    l.countP (fun an => an.assignment_id == v) = 1 := by
  have h1 : l.countP (fun an => an.assignment_id == v)
      = (l.map (fun an => an.assignment_id)).count v := by
    rw [List.count_eq_countP, List.countP_map]
    rfl
  rw [h1]
  have hle := List.nodup_iff_count_le_one.mp hnd v
  have hmem : v ∈ l.map (fun an => an.assignment_id) := by
    rcases hex with ⟨x, hx, rfl⟩
    exact List.mem_map.mpr ⟨x, hx, rfl⟩
  have hpos := List.count_pos_iff.mpr hmem
  omega

lemma countP_eq_zero_of_find?_none (l : List Annotation) (v : Nat)
    (h : l.find? (fun an => an.assignment_id == v) = none) :
    l.countP (fun an => an.assignment_id == v) = 0 := by
  rw [List.countP_eq_zero]
  exact List.find?_eq_none.mp h

/-- The first match of a predicate in a list ordered by a sorted key is a
minimum over all matches. -/
lemma find?_min_of_sorted (time : Assignment → Nat) (p : Assignment → Bool) :
    ∀ (l : List Assignment), (l.map time).Pairwise (fun x y => x ≤ y) →
      ∀ a, l.find? p = some a → ∀ b ∈ l, p b = true → time a ≤ time b := by
  intro l
  induction l with
  | nil => intro _ a ha; simp at ha
  | cons x xs ih =>
    intro hs a ha b hb hpb
    rw [List.map_cons, List.pairwise_cons] at hs
    rcases hs with ⟨hx, hxs⟩
    rw [List.find?_cons] at ha
    by_cases hpx : p x
    · simp only [hpx] at ha
      injection ha with ha
      subst ha
      rcases List.mem_cons.mp hb with rfl | hbxs
      · exact le_refl _
      · exact hx (time b) (List.mem_map.mpr ⟨b, hbxs, rfl⟩)
    · simp only [Bool.not_eq_true] at hpx
      simp only [hpx] at ha
      rcases List.mem_cons.mp hb with rfl | hbxs
      · rw [hpx] at hpb
        exact absurd hpb (by simp)
      · exact ih hxs a ha b hbxs hpb

/-- Unpack a successful update-in-place annotateWrite call. -/
lemma annotateWrite_of_existing (db : DB) (uid : Nat) (asg : Assignment) (q a : String)
    (apr : Bool) (a1 : Annotation)
    (hf : db.annotations.find? (fun an => an.assignment_id == asg.id) = some a1)
    (db' : DB) (hw : annotateWrite uid asg q a apr db = .ok db') :
    db'.annotations = updateFirst (fun an => an.assignment_id == asg.id)
        (fun an => { an with question := if q != "" then some q else none,
                             answer := if a != "" then some a else none,
                             is_approved := apr, is_reported := false,
                             annotated_at := db.now }) db.annotations
      ∧ db'.images = db.images ∧ db'.ctr = db.ctr ∧ db'.now = db.now + 1
      ∧ db'.assignments = updateFirst (fun x => x.id == asg.id)
          (fun x => { x with status := "completed", completed_at := some db.now })
          db.assignments := by
  unfold annotateWrite at hw
  rw [hf] at hw
  simp only [Except.ok.injEq] at hw
  subst hw
  exact ⟨rfl, rfl, rfl, rfl, rfl⟩

/-- Unpack a successful fresh-insert annotateWrite call. -/
lemma annotateWrite_of_fresh (db : DB) (uid : Nat) (asg : Assignment) (q a : String)
    (apr : Bool)
    (hf : db.annotations.find? (fun an => an.assignment_id == asg.id) = none)
    (db' : DB) (hw : annotateWrite uid asg q a apr db = .ok db') :
    ∃ img, db.images.find? (fun im => im.id == asg.image_id) = some img
      ∧ db'.annotations = db.annotations ++ [{
          id := db.ctr, image_id := asg.image_id, user_id := uid,
          assignment_id := asg.id,
          question := if q != "" then some q else none,
          answer := if a != "" then some a else none,
          is_approved := apr, is_reported := false,
          annotation_pass := img.annotation_count + 1, annotated_at := db.now }]
      ∧ db'.images = updateFirst (fun im => im.id == asg.image_id)
          (fun im => { im with annotation_count := im.annotation_count + 1 }) db.images
      ∧ db'.ctr = db.ctr + 1 ∧ db'.now = db.now + 1
      ∧ db'.assignments = updateFirst (fun x => x.id == asg.id)
          (fun x => { x with status := "completed", completed_at := some db.now })
          db.assignments := by
  unfold annotateWrite at hw
  rw [hf] at hw
  cases hfimg : db.images.find? (fun im => im.id == asg.image_id) with
  | none => rw [hfimg] at hw; exact absurd hw (by simp)
  | some img =>
    rw [hfimg] at hw
    simp only [Except.ok.injEq] at hw
    subst hw
    exact ⟨img, rfl, rfl, rfl, rfl, rfl, rfl⟩

/-- A successful save_annotation call completes the assignment it wrote to. -/
lemma save_annotation_assignments (uid : Nat) (req : AnnotateReq) (db db' : DB)
    (h : save_annotation uid req db = .ok db') :
    ∃ asg, db.assignments.find? (fun a => a.id == req.assignment_id && a.user_id == uid)
        = some asg
      ∧ db'.assignments = updateFirst (fun x => x.id == asg.id)
          (fun x => { x with status := "completed", completed_at := some db.now })
          db.assignments
      ∧ db'.now = db.now + 1 := by
  rcases save_annotation_ok uid req db db' h with ⟨asg, hfind, approved, hw⟩
  refine ⟨asg, hfind, ?_⟩
  cases hf : db.annotations.find? (fun an => an.assignment_id == asg.id) with
  | some a1 =>
    have := annotateWrite_of_existing db uid asg _ _ approved a1 hf db' hw
    exact ⟨this.2.2.2.2, this.2.2.2.1⟩
  | none =>
    rcases annotateWrite_of_fresh db uid asg _ _ approved hf db' hw with
      ⟨img, _, _, _, _, hnow, hasgs⟩
    exact ⟨hasgs, hnow⟩

/-- A successful report_image call; same structure as the annotate case. -/
lemma reportWrite_of_existing (db : DB) (uid : Nat) (asg : Assignment) (a1 : Annotation)
    (hf : db.annotations.find? (fun an => an.assignment_id == asg.id) = some a1)
    (db' : DB) (hw : reportWrite uid asg db = .ok db') :
    db'.annotations = updateFirst (fun an => an.assignment_id == asg.id)
        (fun an => { an with is_reported := true, is_approved := false,
                             annotated_at := db.now }) db.annotations
      ∧ db'.images = db.images ∧ db'.ctr = db.ctr ∧ db'.now = db.now + 1
      ∧ db'.assignments = updateFirst (fun x => x.id == asg.id)
          (fun x => { x with status := "completed", completed_at := some db.now })
          db.assignments := by
  unfold reportWrite at hw
  rw [hf] at hw
  simp only [Except.ok.injEq] at hw
  subst hw
  exact ⟨rfl, rfl, rfl, rfl, rfl⟩

/-- Completing an assignment marks exactly the completed status and stamp. -/
lemma completeAssignment_mem (db : DB) (aid : Nat)
    (h : ∃ x ∈ db.assignments, (x.id == aid) = true) :
    ∃ a' ∈ (completeAssignment db aid).assignments,
      a'.id = aid ∧ a'.status = "completed" ∧ a'.completed_at = some db.now := by
  rcases updateFirst_exists_mem (fun x => x.id == aid)
      (fun x => { x with status := "completed", completed_at := some db.now })
      db.assignments h with ⟨x, hx, hpx, hmem⟩
  refine ⟨_, hmem, ?_, rfl, rfl⟩
  simpa using (beq_iff_eq.mp hpx)

/-- Generic form of completeAssignment_mem for any list shaped like the
result of the write operations. -/
lemma updated_assignments_mem (l : List Assignment) (aid t : Nat)
    (h : ∃ x ∈ l, (x.id == aid) = true) :
    ∃ a' ∈ updateFirst (fun x => x.id == aid)
        (fun x => { x with status := "completed", completed_at := some t }) l,
      a'.id = aid ∧ a'.status = "completed" ∧ a'.completed_at = some t := by
  rcases updateFirst_exists_mem (fun x => x.id == aid)
      (fun x => { x with status := "completed", completed_at := some t }) l h with
    ⟨x, hx, hpx, hmem⟩
  refine ⟨_, hmem, ?_, rfl, rfl⟩
  simpa using (beq_iff_eq.mp hpx)

/-- buildImages aborts at the first malformed entry. -/
lemma buildImages_malformed (srcName : String) :
    ∀ (entries : List SeedEntry) (idx : Nat), SeedEntry.malformed ∈ entries →
      buildImages srcName idx entries = .error .malformedEntry := by
  intro entries
  induction entries with
  | nil => intro idx h; simp at h
  | cons e rest ih =>
    intro idx h
    cases e with
    | malformed => rfl
    | entry u =>
      have hrest : SeedEntry.malformed ∈ rest := by
        rcases List.mem_cons.mp h with habs | hr
        · exact absurd habs.symm (by simp)
        · exact hr
      simp only [buildImages, ih (idx + 1) hrest]

/-! ## Claim theorems -/

/-- C9: in every reachable state each Annotation row is in exactly one of
the approved / rejected / reported categories: no row ever has
is_approved = true together with is_reported = true, and the three stats
counters add up to the number of annotation rows. -/
theorem annotation_trichotomy (db : DB) (h : Reachable db) :
    (∀ ann ∈ db.annotations, ¬(ann.is_approved = true ∧ ann.is_reported = true))
    ∧ (adminStats db).approved_images + (adminStats db).rejected_images
        + (adminStats db).reported_images = db.annotations.length := by
  have hinv := reachable_inv db h
  constructor
  · intro ann hann ⟨ha, hr⟩
    have := hinv.flags ann hann ha
    rw [this] at hr
    exact Bool.false_ne_true hr
  · exact countP_partition db.annotations hinv.flags

/-- C3: in every reachable state the progress percentage shown by
get_stats is the documented rounded ratio for both the admin and the
annotator view, is zero when the denominator is zero, and always lies in
the interval [0, 100]. -/
theorem progress_percentage_bounds (db : DB) (u : User) (h : Reachable db) :
    0 ≤ (get_stats db u).progress_percentage
    ∧ (get_stats db u).progress_percentage ≤ 100
    ∧ (u.role = "admin" →
        (db.images.length = 0 → (get_stats db u).progress_percentage = 0)
        ∧ (0 < db.images.length → (get_stats db u).progress_percentage =
            round1 ((((db.annotations.countP (fun an => an.is_approved == true)) : ℚ)
              + db.annotations.countP (fun an => an.is_approved == false && an.is_reported == false)
              + db.annotations.countP (fun an => an.is_reported == true))
                / db.images.length * 100)))
    ∧ (u.role ≠ "admin" →
        (db.assignments.countP (fun a => a.user_id == u.id) = 0 →
          (get_stats db u).progress_percentage = 0)
        ∧ (0 < db.assignments.countP (fun a => a.user_id == u.id) →
          (get_stats db u).progress_percentage =
            round1 (((db.assignments.countP
                  (fun a => a.user_id == u.id && a.status == "completed")) : ℚ)
              / db.assignments.countP (fun a => a.user_id == u.id) * 100))) := by
  have hinv := reachable_inv db h
  by_cases hrole : u.role = "admin"
  · have hdisp : get_stats db u = adminStats db := by
      unfold get_stats
      simp [hrole]
    have hsum : db.annotations.countP (fun an => an.is_approved == true)
        + db.annotations.countP (fun an => an.is_approved == false && an.is_reported == false)
        + db.annotations.countP (fun an => an.is_reported == true)
          = db.annotations.length := countP_partition db.annotations hinv.flags
    have hle := annotations_le_images db hinv
    by_cases hzero : 0 < db.images.length
    · have hprog : (adminStats db).progress_percentage =
          round1 ((((db.annotations.countP (fun an => an.is_approved == true)) : ℚ)
            + db.annotations.countP (fun an => an.is_approved == false && an.is_reported == false)
            + db.annotations.countP (fun an => an.is_reported == true))
              / db.images.length * 100) := by
        unfold adminStats
        simp only [hzero, if_pos]
      have hratio_le : (((db.annotations.countP (fun an => an.is_approved == true)) : ℚ)
          + db.annotations.countP (fun an => an.is_approved == false && an.is_reported == false)
          + db.annotations.countP (fun an => an.is_reported == true))
            / db.images.length * 100 ≤ 100 := by
        have := ratio_le_100 (db.annotations.countP (fun an => an.is_approved == true)
            + db.annotations.countP (fun an => an.is_approved == false && an.is_reported == false)
            + db.annotations.countP (fun an => an.is_reported == true))
          db.images.length (by omega) hzero
        push_cast at this ⊢
        linarith
      have hratio_nonneg : 0 ≤ (((db.annotations.countP (fun an => an.is_approved == true)) : ℚ)
          + db.annotations.countP (fun an => an.is_approved == false && an.is_reported == false)
          + db.annotations.countP (fun an => an.is_reported == true))
            / db.images.length * 100 := by
        positivity
      refine ⟨?_, ?_, ?_, ?_⟩
      · rw [hdisp, hprog]
        exact round1_nonneg _ hratio_nonneg
      · rw [hdisp, hprog]
        exact round1_le_100 _ hratio_le
      · exact fun _ => ⟨fun habs => by omega, fun _ => by rw [hdisp, hprog]⟩
      · exact fun habs => absurd hrole habs
    · have hprog : (adminStats db).progress_percentage = 0 := by
        unfold adminStats
        simp [hzero]
      refine ⟨?_, ?_, ?_, ?_⟩
      · rw [hdisp, hprog]
      · rw [hdisp, hprog]; norm_num
      · exact fun _ => ⟨fun _ => by rw [hdisp, hprog], fun hpos => absurd hpos hzero⟩
      · exact fun habs => absurd hrole habs
  · have hdisp : get_stats db u = userStats db u.id := by
      unfold get_stats
      simp only [beq_iff_eq]
      rw [if_neg hrole]
    have hle : db.assignments.countP (fun a => a.user_id == u.id && a.status == "completed")
        ≤ db.assignments.countP (fun a => a.user_id == u.id) := by
      apply List.countP_mono_left
      intro a _ hpa
      simp only [Bool.and_eq_true] at hpa
      exact hpa.1
    by_cases hzero : 0 < db.assignments.countP (fun a => a.user_id == u.id)
    · have hprog : (userStats db u.id).progress_percentage =
          round1 (((db.assignments.countP
              (fun a => a.user_id == u.id && a.status == "completed")) : ℚ)
            / db.assignments.countP (fun a => a.user_id == u.id) * 100) := by
        unfold userStats
        simp only [hzero, if_pos]
      refine ⟨?_, ?_, ?_, ?_⟩
      · rw [hdisp, hprog]
        exact round1_nonneg _ (ratio_nonneg _ _)
      · rw [hdisp, hprog]
        exact round1_le_100 _ (ratio_le_100 _ _ hle hzero)
      · exact fun habs => absurd habs hrole
      · exact fun _ => ⟨fun habs => by omega, fun _ => by rw [hdisp, hprog]⟩
    · have hprog : (userStats db u.id).progress_percentage = 0 := by
        unfold userStats
        simp [hzero]
      refine ⟨?_, ?_, ?_, ?_⟩
      · rw [hdisp, hprog]
      · rw [hdisp, hprog]; norm_num
      · exact fun habs => absurd habs hrole
      · exact fun _ => ⟨fun _ => by rw [hdisp, hprog], fun hpos => absurd hpos hzero⟩

/-- C5: for every user, get_next_image returns a pending assignment of that
user whose assigned_at is minimal among the user's pending assignments
(first in stable table order), and returns the all-complete signal exactly
when the user has no pending assignment. -/
theorem next_image_earliest (db : DB) (uid : Nat) (h : Reachable db) :
    (∀ asg, get_next_image uid db = some asg →
      asg.user_id = uid ∧ asg.status = "pending" ∧ asg ∈ db.assignments
        ∧ ∀ b ∈ db.assignments, b.user_id = uid → b.status = "pending" →
            asg.assigned_at ≤ b.assigned_at)
    ∧ (get_next_image uid db = none ↔
        ∀ b ∈ db.assignments, ¬(b.user_id = uid ∧ b.status = "pending")) := by
  have hinv := reachable_inv db h
  constructor
  · intro asg hfind
    unfold get_next_image at hfind
    have hmem := List.mem_of_find?_eq_some hfind
    have hp := List.find?_some hfind
    simp only [Bool.and_eq_true, beq_iff_eq] at hp
    refine ⟨hp.1, hp.2, hmem, ?_⟩
    intro b hb hbu hbs
    exact find?_min_of_sorted (fun a => a.assigned_at) _ db.assignments hinv.asgSorted
      asg hfind b hb (by simp [hbu, hbs])
  · unfold get_next_image
    rw [List.find?_eq_none]
    constructor
    · intro hnone b hb hcon
      have := hnone b hb
      simp [hcon.1, hcon.2] at this
    · intro hall b hb
      have := hall b hb
      simp only [Bool.and_eq_true, beq_iff_eq]
      tauto

/-- C7: export rows under the rejected filter never carry is_reported =
true (nor is_approved = true), keeping the three categories disjoint. -/
theorem rejected_export_excludes_reported (db : DB) (uf : Option Nat) (row : ExportRow)
    (h : row ∈ admin_download_annotations "rejected" uf db) :
    row.is_reported = false ∧ row.is_approved = false := by
  unfold admin_download_annotations at h
  rw [show (("rejected" : String) == "approved") = false from by decide,
      show (("rejected" : String) == "rejected") = true from by decide] at h
  simp only [Bool.false_eq_true, if_false, if_true] at h
  cases uf with
  | some u =>
    simp only [List.mem_map, List.mem_filter] at h
    rcases h with ⟨t, ⟨⟨htm, hpred⟩, hq⟩, rfl⟩
    simp only [Bool.and_eq_true, beq_iff_eq] at hpred
    exact ⟨hpred.2, hpred.1⟩
  | none =>
    simp only [List.mem_map, List.mem_filter] at h
    rcases h with ⟨t, ⟨htm, hpred⟩, rfl⟩
    simp only [Bool.and_eq_true, beq_iff_eq] at hpred
    exact ⟨hpred.2, hpred.1⟩

/-- C10: reporting an assignment that already carries an Annotation row
only flips is_reported / is_approved and re-stamps annotated_at; question,
answer, annotation_pass, the row id and all foreign keys stay unchanged,
and no other row or table is touched. -/
theorem report_preserves_content (db : DB) (uid : Nat) (req : ReportReq)
    (asg : Assignment) (ann : Annotation)
    (hasg : db.assignments.find? (fun a => a.id == req.assignment_id && a.user_id == uid)
      = some asg)
    (hann : db.annotations.find? (fun an => an.assignment_id == asg.id) = some ann)
    (db' : DB) (hok : report_image uid req db = .ok db') :
    db'.annotations.find? (fun an => an.assignment_id == asg.id) =
        some { ann with is_reported := true, is_approved := false, annotated_at := db.now }
      ∧ db'.images = db.images
      ∧ db'.annotations.length = db.annotations.length
      ∧ (∀ other ∈ db'.annotations, other.assignment_id ≠ asg.id →
          other ∈ db.annotations) := by
  have he : report_image uid req db = reportWrite uid asg db := by
    unfold report_image
    rw [hasg]
  have he2 : reportWrite uid asg db = .ok (completeAssignment
      (DB.mk db.images db.users db.assignments
        (updateFirst (fun an => an.assignment_id == asg.id)
          (fun an => { an with is_reported := true, is_approved := false,
                               annotated_at := db.now }) db.annotations)
        db.ctr db.now) asg.id) := by
    unfold reportWrite
    rw [hann]
  rw [he, he2] at hok
  simp only [Except.ok.injEq] at hok
  subst hok
  refine ⟨?_, rfl, ?_, ?_⟩
  · simp only [completeAssignment]
    rw [updateFirst_find? (fun an => an.assignment_id == asg.id)
        (fun an => { an with is_reported := true, is_approved := false,
                             annotated_at := db.now })
        (fun x => rfl) db.annotations, hann]
    rfl
  · exact updateFirst_length _ _ _
  · intro other hother hne
    rcases mem_updateFirst _ _ _ other hother with hmem | ⟨x, hx, hpx, rfl⟩
    · exact hmem
    · exfalso
      exact hne (beq_iff_eq.mp hpx)

lemma annotateWrite_ok_exists (db : DB) (uid : Nat) (asg : Assignment)
    (q a : String) (apr : Bool)
    (hside : (∃ ann ∈ db.annotations, ann.assignment_id = asg.id)
      ∨ asg.image_id ∈ db.images.map (fun im => im.id)) :
    ∃ db', annotateWrite uid asg q a apr db = .ok db'
      ∧ db'.assignments = updateFirst (fun x => x.id == asg.id)
          (fun x => { x with status := "completed", completed_at := some db.now })
          db.assignments := by
  unfold annotateWrite
  cases hf : db.annotations.find? (fun an => an.assignment_id == asg.id) with
  | some a1 => exact ⟨_, rfl, rfl⟩
  | none =>
    have himg : ∃ img, db.images.find? (fun im => im.id == asg.image_id) = some img := by
      rcases hside with ⟨ann, hann, hannid⟩ | hmem
      · exfalso
        have := List.find?_eq_none.mp hf ann hann
        simp [hannid] at this
      · rcases List.mem_map.mp hmem with ⟨im, him, himid⟩
        have : (db.images.find? (fun im2 => im2.id == asg.image_id)).isSome :=
          List.find?_isSome.mpr ⟨im, him, by simp [himid]⟩
        exact Option.isSome_iff_exists.mp this
    rcases himg with ⟨img, hfimg⟩
    rw [hfimg]
    exact ⟨_, rfl, rfl⟩

lemma reportWrite_ok_exists (db : DB) (uid : Nat) (asg : Assignment)
    (hside : (∃ ann ∈ db.annotations, ann.assignment_id = asg.id)
      ∨ asg.image_id ∈ db.images.map (fun im => im.id)) :
    ∃ db', reportWrite uid asg db = .ok db'
      ∧ db'.assignments = updateFirst (fun x => x.id == asg.id)
          (fun x => { x with status := "completed", completed_at := some db.now })
          db.assignments := by
  unfold reportWrite
  cases hf : db.annotations.find? (fun an => an.assignment_id == asg.id) with
  | some a1 => exact ⟨_, rfl, rfl⟩
  | none =>
    have himg : ∃ img, db.images.find? (fun im => im.id == asg.image_id) = some img := by
      rcases hside with ⟨ann, hann, hannid⟩ | hmem
      · exfalso
        have := List.find?_eq_none.mp hf ann hann
        simp [hannid] at this
      · rcases List.mem_map.mp hmem with ⟨im, him, himid⟩
        have : (db.images.find? (fun im2 => im2.id == asg.image_id)).isSome :=
          List.find?_isSome.mpr ⟨im, him, by simp [himid]⟩
        exact Option.isSome_iff_exists.mp this
    rcases himg with ⟨img, hfimg⟩
    rw [hfimg]
    exact ⟨_, rfl, rfl⟩

/-- C4 counterexample: an assignment that exists but belongs to user 1 makes
user 0's annotate and report calls fail with NotFound, not Forbidden: the
routes filter by id and owner in a single query and cannot distinguish the
two situations. -/
theorem wrong_owner_gives_not_found :
    (∃ a ∈ (DB.mk [] [] [Assignment.mk 7 1 "000000" 0 none "pending"] [] 8 1).assignments,
        a.id = 7 ∧ a.user_id ≠ 0)
    ∧ save_annotation 0 (AnnotateReq.mk "000000" 7 "q" "a" false)
        (DB.mk [] [] [Assignment.mk 7 1 "000000" 0 none "pending"] [] 8 1)
      = .error .notFound
    ∧ report_image 0 (ReportReq.mk "000000" 7)
        (DB.mk [] [] [Assignment.mk 7 1 "000000" 0 none "pending"] [] 8 1)
      = .error .notFound
    ∧ ApiError.notFound ≠ ApiError.forbidden := by
  refine ⟨⟨Assignment.mk 7 1 "000000" 0 none "pending", by simp, rfl, by decide⟩,
    by decide, by decide, by decide⟩

/-- C4 (amended): annotate and report look the assignment up by id and
owner together, so a missing assignment and an assignment owned by another
user both fail with NotFound (no Forbidden distinction exists in these
routes); when the lookup succeeds and the write goes through, the
assignment is stamped status = completed with completed_at = now, and an
already-completed assignment is re-stamped rather than rejected. -/
theorem ownership_check_behaviour (db : DB) (uid : Nat) (req : ReportReq) :
    (db.assignments.find? (fun a => a.id == req.assignment_id && a.user_id == uid) = none →
      report_image uid req db = .error .notFound
      ∧ ∀ areq : AnnotateReq, areq.assignment_id = req.assignment_id →
          save_annotation uid areq db = .error .notFound)
    ∧ (∀ asg, db.assignments.find? (fun a => a.id == req.assignment_id && a.user_id == uid)
          = some asg →
        ((∃ ann ∈ db.annotations, ann.assignment_id = asg.id)
            ∨ asg.image_id ∈ db.images.map (fun im => im.id)) →
        (∃ db', report_image uid req db = .ok db'
          ∧ ∃ a' ∈ db'.assignments, a'.id = req.assignment_id ∧ a'.status = "completed"
              ∧ a'.completed_at = some db.now)
        ∧ (∀ areq : AnnotateReq, areq.assignment_id = req.assignment_id →
            (strip areq.question ≠ "" ∧ strip areq.answer ≠ "") ∨ areq.is_rejected = true →
            ∃ db', save_annotation uid areq db = .ok db'
              ∧ ∃ a' ∈ db'.assignments, a'.id = req.assignment_id ∧ a'.status = "completed"
                  ∧ a'.completed_at = some db.now)) := by
  constructor
  · intro hnone
    constructor
    · unfold report_image
      rw [hnone]
    · intro areq haeq
      unfold save_annotation
      rw [haeq, hnone]
  · intro asg hsome hside
    have haid : asg.id = req.assignment_id := by
      have := List.find?_some hsome
      simp only [Bool.and_eq_true, beq_iff_eq] at this
      exact this.1
    have hmem := List.mem_of_find?_eq_some hsome
    have hself : ∃ x ∈ db.assignments, (x.id == asg.id) = true := ⟨asg, hmem, by simp⟩
    constructor
    · rcases reportWrite_ok_exists db uid asg hside with ⟨db', hok, hasgs⟩
      refine ⟨db', ?_, ?_⟩
      · unfold report_image
        rw [hsome]
        exact hok
      · rw [hasgs]
        rcases updated_assignments_mem db.assignments asg.id db.now hself with
          ⟨a', ha', h1, h2, h3⟩
        exact ⟨a', ha', haid ▸ h1, h2, h3⟩
    · intro areq haeq hpay
      rcases annotateWrite_ok_exists db uid asg (strip areq.question) (strip areq.answer)
          (if strip areq.question != "" && strip areq.answer != "" then true else false)
          hside with ⟨db', hok, hasgs⟩
      by_cases hqa : (strip areq.question != "" && strip areq.answer != "") = true
      · rcases annotateWrite_ok_exists db uid asg (strip areq.question) (strip areq.answer)
            true hside with ⟨dbt, hokt, hasgst⟩
        refine ⟨dbt, ?_, ?_⟩
        · unfold save_annotation
          rw [haeq, hsome]
          simp only [hqa, if_pos]
          exact hokt
        · rw [hasgst]
          rcases updated_assignments_mem db.assignments asg.id db.now hself with
            ⟨a', ha', h1, h2, h3⟩
          exact ⟨a', ha', haid ▸ h1, h2, h3⟩
      · have hrej : areq.is_rejected = true := by
          rcases hpay with ⟨hq, ha⟩ | hr
          · exfalso
            apply hqa
            simp only [Bool.and_eq_true, bne_iff_ne]
            exact ⟨hq, ha⟩
          · exact hr
        rcases annotateWrite_ok_exists db uid asg (strip areq.question) (strip areq.answer)
            false hside with ⟨dbf, hokf, hasgsf⟩
        refine ⟨dbf, ?_, ?_⟩
        · unfold save_annotation
          rw [haeq, hsome]
          simp only [hqa, if_neg, hrej, if_pos, Bool.false_eq_true]
          exact hokf
        · rw [hasgsf]
          rcases updated_assignments_mem db.assignments asg.id db.now hself with
            ⟨a', ha', h1, h2, h3⟩
          exact ⟨a', ha', haid ▸ h1, h2, h3⟩

lemma annotateWrite_ne_invalid (db : DB) (uid : Nat) (asg : Assignment)
    (q a : String) (apr : Bool) :
    annotateWrite uid asg q a apr db ≠ .error .invalidPayload := by
  unfold annotateWrite
  cases db.annotations.find? (fun an => an.assignment_id == asg.id) with
  | some _ => simp
  | none =>
    cases db.images.find? (fun im => im.id == asg.image_id) with
    | none => simp
    | some img => simp

/-- C6: with the assignment resolved, an annotate submission is rejected
with the invalid-payload error exactly when, after trimming, it offers
neither a complete question-and-answer pair nor the explicit rejection
flag; and a submission with both fields non-empty after trimming is stored
approved and not reported, carrying the trimmed text. -/
theorem annotate_payload_validation (db : DB) (uid : Nat) (req : AnnotateReq)
    (asg : Assignment)
    (hfind : db.assignments.find? (fun a => a.id == req.assignment_id && a.user_id == uid)
      = some asg) :
    ( save_annotation uid req db = .error .invalidPayload ↔
        ¬(strip req.question ≠ "" ∧ strip req.answer ≠ "") ∧ req.is_rejected = false)
    ∧ (strip req.question ≠ "" → strip req.answer ≠ "" →
        ∀ db', save_annotation uid req db = .ok db' →
          ∃ ann ∈ db'.annotations, ann.assignment_id = req.assignment_id
            ∧ ann.is_approved = true ∧ ann.is_reported = false
            ∧ ann.question = some (strip req.question)
            ∧ ann.answer = some (strip req.answer)) := by
  have haid : asg.id = req.assignment_id := by
    have := List.find?_some hfind
    simp only [Bool.and_eq_true, beq_iff_eq] at this
    exact this.1
  have hbranch : ∀ apr : Bool, ∀ db',
      annotateWrite uid asg (strip req.question) (strip req.answer) apr db = .ok db' →
      (strip req.question ≠ "" → strip req.answer ≠ "" →
        ∃ ann ∈ db'.annotations, ann.assignment_id = req.assignment_id
          ∧ ann.is_approved = apr ∧ ann.is_reported = false
          ∧ ann.question = some (strip req.question)
          ∧ ann.answer = some (strip req.answer)) := by
    intro apr db' hw hq ha
    have hqb : (strip req.question != "") = true := bne_iff_ne.mpr hq
    have hab : (strip req.answer != "") = true := bne_iff_ne.mpr ha
    cases hf : db.annotations.find? (fun an => an.assignment_id == asg.id) with
    | some a1 =>
      obtain ⟨hann, _, _, _, _⟩ :=
        annotateWrite_of_existing db uid asg _ _ apr a1 hf db' hw
      have hpa1 := List.find?_some hf
      rcases updateFirst_exists_mem (fun an => an.assignment_id == asg.id)
          (fun an => { an with
            question := if strip req.question != "" then some (strip req.question) else none,
            answer := if strip req.answer != "" then some (strip req.answer) else none,
            is_approved := apr, is_reported := false, annotated_at := db.now })
          db.annotations ⟨a1, List.mem_of_find?_eq_some hf, hpa1⟩ with
        ⟨x, hx, hpx, hmemu⟩
      refine ⟨_, hann ▸ hmemu, ?_, rfl, rfl, ?_, ?_⟩
      · have := beq_iff_eq.mp hpx
        simpa [haid] using this
      · simp [hqb]
      · simp [hab]
    | none =>
      rcases annotateWrite_of_fresh db uid asg _ _ apr hf db' hw with
        ⟨img, hfimg, hann, _, _, _, _⟩
      refine ⟨{ id := db.ctr, image_id := asg.image_id, user_id := uid,
                assignment_id := asg.id,
                question := if strip req.question != "" then some (strip req.question)
                  else none,
                answer := if strip req.answer != "" then some (strip req.answer) else none,
                is_approved := apr, is_reported := false,
                annotation_pass := img.annotation_count + 1, annotated_at := db.now },
        by rw [hann]; exact List.mem_append_right _ (by simp), ?_, rfl, rfl, ?_, ?_⟩
      · simpa using haid
      · simp [hqb]
      · simp [hab]
  have heq : save_annotation uid req db =
      (if strip req.question != "" && strip req.answer != "" then
        annotateWrite uid asg (strip req.question) (strip req.answer) true db
      else if req.is_rejected then
        annotateWrite uid asg (strip req.question) (strip req.answer) false db
      else .error .invalidPayload) := by
    unfold save_annotation
    rw [hfind]
  constructor
  · by_cases hqa : (strip req.question != "" && strip req.answer != "") = true
    · rw [heq, if_pos hqa]
      constructor
      · intro habs
        exact absurd habs (annotateWrite_ne_invalid db uid asg _ _ true)
      · rintro ⟨hneg, _⟩
        exfalso
        apply hneg
        simp only [Bool.and_eq_true, bne_iff_ne] at hqa
        exact hqa
    · by_cases hrej : req.is_rejected = true
      · rw [heq, if_neg (by simp [hqa]), if_pos hrej]
        constructor
        · intro habs
          exact absurd habs (annotateWrite_ne_invalid db uid asg _ _ false)
        · rintro ⟨_, hfalse⟩
          rw [hrej] at hfalse
          exact absurd hfalse (by simp)
      · rw [heq, if_neg (by simp [hqa]), if_neg (by simp [hrej])]
        constructor
        · intro _
          refine ⟨?_, by simpa using hrej⟩
          rintro ⟨hq, ha⟩
          apply hqa
          simp only [Bool.and_eq_true, bne_iff_ne]
          exact ⟨hq, ha⟩
        · intro _
          rfl
  · intro hq ha db' hok
    have hqa : (strip req.question != "" && strip req.answer != "") = true := by
      simp only [Bool.and_eq_true, bne_iff_ne]
      exact ⟨hq, ha⟩
    rw [heq, if_pos hqa] at hok
    exact hbranch true db' hok hq ha

/-- Unpack a successful bulk-assignment call. -/
lemma admin_create_assignments_ok (user_id count : Nat) (db db' : DB) (c : Nat)
    (h : admin_create_assignments user_id count db = .ok (db', c)) :
    c = ((unassignedImages db).take count).length
    ∧ db'.assignments = db.assignments
        ++ mkAssignments user_id db.now db.ctr ((unassignedImages db).take count)
    ∧ db'.images = db.images ∧ db'.annotations = db.annotations := by
  unfold admin_create_assignments at h
  cases hf : db.users.find? (fun u => u.id == user_id) with
  | none => rw [hf] at h; exact absurd h (by simp)
  | some u =>
    rw [hf] at h
    simp only [Except.ok.injEq, Prod.mk.injEq] at h
    obtain ⟨h1, h2⟩ := h
    subst h1
    subst h2
    exact ⟨rfl, rfl, rfl, rfl⟩

/-- C2: bulk assignment creates exactly min(count, size of the unassigned
pool) assignments, reports that number, gives each new row status pending
on an image that previously had no Assignment row for any user, and keeps
both the one-assignment-per-image and the unique (user, image) properties. -/
theorem bulk_assign_spec (db db' : DB) (uid count c : Nat) (h : Reachable db)
    (hok : admin_create_assignments uid count db = .ok (db', c)) :
    c = min count (unassignedImages db).length
    ∧ db'.assignments.length = db.assignments.length + c
    ∧ (∀ a ∈ db'.assignments, a ∈ db.assignments ∨
        (a.status = "pending" ∧ a.user_id = uid ∧ a.completed_at = none
          ∧ ¬∃ b ∈ db.assignments, b.image_id = a.image_id))
    ∧ (db'.assignments.map (fun a => a.image_id)).Nodup
    ∧ (db'.assignments.map (fun a => (a.user_id, a.image_id))).Nodup := by
  have hinv' := inv_admin_create_assignments uid count db db' c (reachable_inv db h) hok
  rcases admin_create_assignments_ok uid count db db' c hok with ⟨hc, hasgs, _, _⟩
  refine ⟨?_, ?_, ?_, hinv'.asgImgNodup, ?_⟩
  · rw [hc, List.length_take]
  · rw [hasgs, List.length_append, mkAssignments_length, hc, List.length_take]
  · intro a ha
    rw [hasgs] at ha
    rcases List.mem_append.mp ha with hmem | hmem
    · exact Or.inl hmem
    · right
      rcases mkAssignments_mem _ _ _ _ a hmem with ⟨h1, h2, _, h4, im, him, himid⟩
      refine ⟨h1, h2, h4, ?_⟩
      rintro ⟨b, hb, hbid⟩
      have him2 : im ∈ unassignedImages db := List.mem_of_mem_take him
      have hfa := (List.mem_filter.mp him2).2
      rw [Bool.not_eq_true', List.any_eq_false] at hfa
      have hcon := hfa b hb
      rw [hbid, himid] at hcon
      simp at hcon
  · have hsnd : ((db'.assignments.map (fun a => (a.user_id, a.image_id))).map Prod.snd).Nodup := by
      rw [List.map_map]
      exact hinv'.asgImgNodup
    exact List.Nodup.of_map _ hsnd

/-- C1: once a submission has gone through, resubmitting the identical
payload takes the update-in-place branch: the second call leaves exactly
one live Annotation row for the assignment (same row id, same pass number)
and does not touch any Image row, so annotation_count is not incremented a
second time; the counter is bumped exactly once, by the call that created
the fresh row with annotation_pass = annotation_count + 1. -/
theorem submit_idempotent (db db1 db2 : DB) (uid : Nat) (req : AnnotateReq)
    (hr : Reachable db)
    (h1 : save_annotation uid req db = .ok db1)
    (h2 : save_annotation uid req db1 = .ok db2) :
    db2.annotations.countP (fun an => an.assignment_id == req.assignment_id) = 1
    ∧ db2.annotations.length = db1.annotations.length
    ∧ (∃ a1 a2,
        db1.annotations.find? (fun an => an.assignment_id == req.assignment_id) = some a1
        ∧ db2.annotations.find? (fun an => an.assignment_id == req.assignment_id) = some a2
        ∧ a2.id = a1.id ∧ a2.annotation_pass = a1.annotation_pass)
    ∧ db2.images = db1.images
    ∧ (db.annotations.find? (fun an => an.assignment_id == req.assignment_id) = none →
        ∃ asg img a1,
          db.assignments.find? (fun a => a.id == req.assignment_id && a.user_id == uid)
            = some asg
          ∧ db.images.find? (fun im => im.id == asg.image_id) = some img
          ∧ db1.annotations.find? (fun an => an.assignment_id == req.assignment_id) = some a1
          ∧ a1.annotation_pass = img.annotation_count + 1
          ∧ db1.images = updateFirst (fun im => im.id == asg.image_id)
              (fun im => { im with annotation_count := im.annotation_count + 1 })
              db.images) := by
  have hinv := reachable_inv db hr
  rcases save_annotation_ok uid req db db1 h1 with ⟨asg, hfind, apr1, hw1⟩
  have haid : asg.id = req.assignment_id := by
    have := List.find?_some hfind
    simp only [Bool.and_eq_true, beq_iff_eq] at this
    exact this.1
  -- stage 1: the first call leaves exactly one live row for the assignment
  have key1 : db1.annotations.countP (fun an => an.assignment_id == req.assignment_id) = 1
      ∧ (∃ a1, db1.annotations.find? (fun an => an.assignment_id == req.assignment_id)
          = some a1)
      ∧ (db.annotations.find? (fun an => an.assignment_id == req.assignment_id) = none →
          ∃ img a1,
            db.images.find? (fun im => im.id == asg.image_id) = some img
            ∧ db1.annotations.find? (fun an => an.assignment_id == req.assignment_id)
                = some a1
            ∧ a1.annotation_pass = img.annotation_count + 1
            ∧ db1.images = updateFirst (fun im => im.id == asg.image_id)
                (fun im => { im with annotation_count := im.annotation_count + 1 })
                db.images) := by
    cases hface : db.annotations.find? (fun an => an.assignment_id == req.assignment_id) with
    | some a0 =>
      have hface2 : db.annotations.find? (fun an => an.assignment_id == asg.id) = some a0 := by
        rw [haid]
        exact hface
      obtain ⟨hann1, himg1, _, _, _⟩ :=
        annotateWrite_of_existing db uid asg _ _ apr1 a0 hface2 db1 hw1
      have hcount : db1.annotations.countP (fun an => an.assignment_id == req.assignment_id)
          = db.annotations.countP (fun an => an.assignment_id == req.assignment_id) := by
        rw [hann1]
        refine updateFirst_countP _ _ _ ?_ _
        intro x
        rfl
      have hone : db.annotations.countP (fun an => an.assignment_id == req.assignment_id)
          = 1 := by
        have hprop := List.find?_some hface
        exact countP_beq_eq_one db.annotations hinv.annNodup req.assignment_id
          ⟨a0, List.mem_of_find?_eq_some hface, by simpa using hprop⟩
      have hfind1 : db1.annotations.find? (fun an => an.assignment_id == req.assignment_id)
          = some ((fun an => { an with
              question := if strip req.question != "" then some (strip req.question)
                else none,
              answer := if strip req.answer != "" then some (strip req.answer) else none,
              is_approved := apr1, is_reported := false, annotated_at := db.now }) a0) := by
        rw [hann1, ← haid]
        rw [updateFirst_find? (fun an => an.assignment_id == asg.id)
            (fun an => { an with
              question := if strip req.question != "" then some (strip req.question)
                else none,
              answer := if strip req.answer != "" then some (strip req.answer) else none,
              is_approved := apr1, is_reported := false, annotated_at := db.now })
            (fun x => rfl) db.annotations, hface2]
        rfl
      refine ⟨by rw [hcount, hone], ⟨_, hfind1⟩, fun habs => ?_⟩
      simp at habs
    | none =>
      have hface2 : db.annotations.find? (fun an => an.assignment_id == asg.id) = none := by
        rw [haid]
        exact hface
      rcases annotateWrite_of_fresh db uid asg _ _ apr1 hface2 db1 hw1 with
        ⟨img, hfimg, hann1, himg1, _, _, _⟩
      have hfind1 : db1.annotations.find? (fun an => an.assignment_id == req.assignment_id)
          = some { id := db.ctr,
                   image_id := asg.image_id,
                   user_id := uid,
                   assignment_id := asg.id,
                   question := if strip req.question != "" then some (strip req.question)
                     else none,
                   answer := if strip req.answer != "" then some (strip req.answer)
                     else none,
                   is_approved := apr1,
                   is_reported := false,
                   annotation_pass := img.annotation_count + 1,
                   annotated_at := db.now } := by
        rw [hann1, List.find?_append, hface]
        simp only [Option.none_or]
        simp [List.find?_cons, haid]
      have hcount : db1.annotations.countP (fun an => an.assignment_id == req.assignment_id)
          = 1 := by
        rw [hann1, List.countP_append, countP_eq_zero_of_find?_none _ _ hface]
        simp [List.countP_cons, haid]
      exact ⟨hcount, ⟨_, hfind1⟩,
        fun _ => ⟨img, _, hfimg, hfind1, rfl, himg1⟩⟩
  -- stage 2: the second call finds the live row and updates it in place
  rcases save_annotation_ok uid req db1 db2 h2 with ⟨asg2, hfind2, apr2, hw2⟩
  have haid2 : asg2.id = req.assignment_id := by
    have := List.find?_some hfind2
    simp only [Bool.and_eq_true, beq_iff_eq] at this
    exact this.1
  rcases key1.2.1 with ⟨a1, hfa1⟩
  have hfa1' : db1.annotations.find? (fun an => an.assignment_id == asg2.id) = some a1 := by
    rw [haid2]
    exact hfa1
  obtain ⟨hann2, himg2, _, _, _⟩ :=
    annotateWrite_of_existing db1 uid asg2 _ _ apr2 a1 hfa1' db2 hw2
  have hcount2 : db2.annotations.countP (fun an => an.assignment_id == req.assignment_id)
      = db1.annotations.countP (fun an => an.assignment_id == req.assignment_id) := by
    rw [hann2]
    refine updateFirst_countP _ _ _ ?_ _
    intro x
    rfl
  have hfind2' : db2.annotations.find? (fun an => an.assignment_id == req.assignment_id)
      = some ((fun an => { an with
          question := if strip req.question != "" then some (strip req.question) else none,
          answer := if strip req.answer != "" then some (strip req.answer) else none,
          is_approved := apr2, is_reported := false, annotated_at := db1.now }) a1) := by
    rw [hann2, ← haid2]
    rw [updateFirst_find? (fun an => an.assignment_id == asg2.id)
        (fun an => { an with
          question := if strip req.question != "" then some (strip req.question) else none,
          answer := if strip req.answer != "" then some (strip req.answer) else none,
          is_approved := apr2, is_reported := false, annotated_at := db1.now })
        (fun x => rfl) db1.annotations, hfa1']
    rfl
  refine ⟨by rw [hcount2]; exact key1.1, by rw [hann2]; exact updateFirst_length _ _ _,
    ⟨a1, _, hfa1, hfind2', rfl, rfl⟩, himg2, ?_⟩
  intro hnone
  rcases key1.2.2 hnone with ⟨img, a1', hfimg, hfa1x, hpass, himgs⟩
  exact ⟨asg, img, a1', hfind, hfimg, hfa1x, hpass, himgs⟩

/-- C8 counterexample: a missing seed file makes load_images_from_json
return successfully without loading anything (the claimed LoadError is
never raised), while a single malformed entry in an otherwise good
document aborts the whole load with an error instead of being skipped. -/
theorem load_error_claim_counterexample :
    load_images_from_json SeedFile.absent initDB = .ok { initDB with now := 1 }
    ∧ load_images_from_json
        (SeedFile.doc
          { images := [SeedEntry.entry (some "http://example.com/a.jpg"),
                       SeedEntry.malformed,
                       SeedEntry.entry (some "http://example.com/b.jpg")],
            flickr_url := some "flickr" }) initDB
      = .error .malformedEntry := by
  exact ⟨by decide, by decide⟩

/-- C8 (amended): load_images_from_json silently no-ops when the seed file
is absent; with at least one Image present it is a no-op for every seed
file; an unparseable document on an empty catalog raises a load error, and
so does a document with one malformed image entry, aborting the whole load
rather than skipping that entry; a successful load assigns the zero-padded
ids "%06d" sequentially in input order. -/
theorem load_behaviour (db : DB) (f : SeedFile) :
    (f = SeedFile.absent → load_images_from_json f db = .ok { db with now := db.now + 1 })
    ∧ (0 < db.images.length →
        load_images_from_json f db = .ok { db with now := db.now + 1 })
    ∧ (db.images.length = 0 →
        load_images_from_json SeedFile.malformed db = .error .malformedDocument)
    ∧ (∀ d, db.images.length = 0 → SeedEntry.malformed ∈ d.images →
        load_images_from_json (SeedFile.doc d) db = .error .malformedEntry)
    ∧ (∀ d db', db.images.length = 0 → load_images_from_json (SeedFile.doc d) db = .ok db' →
        db'.images.map (fun im => im.id) = (List.range d.images.length).map pad6) := by
  refine ⟨?_, ?_, ?_, ?_, ?_⟩
  · intro hf
    subst hf
    rfl
  · intro hlen
    cases f with
    | absent => rfl
    | malformed =>
      simp only [load_images_from_json]
      rw [if_pos hlen]
    | doc d =>
      simp only [load_images_from_json]
      rw [if_pos hlen]
  · intro hlen
    simp only [load_images_from_json]
    rw [if_neg (by omega)]
  · intro d hlen hmem
    simp only [load_images_from_json]
    rw [if_neg (by omega), buildImages_malformed _ d.images 0 hmem]
  · intro d db' hlen hok
    simp only [load_images_from_json] at hok
    rw [if_neg (by omega)] at hok
    cases hb : buildImages (d.flickr_url.getD "unknown") 0 d.images with
    | error e => rw [hb] at hok; exact absurd hok (by simp)
    | ok imgs =>
      rw [hb] at hok
      simp only [Except.ok.injEq] at hok
      subst hok
      have hmap := buildImages_map_id _ d.images 0 imgs hb
      simp only at hmap ⊢
      rw [hmap]
      apply List.map_congr_left
      intro i _
      simp

/-! ## A concrete execution trace, used by the witnesses -/

def seedDoc1 : SeedDoc :=
  { images := [SeedEntry.entry (some "http://example.com/a.jpg")],
    flickr_url := some "flickr" }

def alice : User := { id := 0, username := "alice", role := "annotator" }

def adminUser : User := { id := 99, username := "root", role := "admin" }

def imgA0 : Image :=
  { id := "000000", source := "flickr", image_path := "http://example.com/a.jpg",
    image_url := "http://example.com/a.jpg", annotation_count := 0 }

def imgA1 : Image := { imgA0 with annotation_count := 1 }

def asgC : Assignment :=
  { id := 1, user_id := 0, image_id := "000000", assigned_at := 2,
    completed_at := none, status := "pending" }

def asgD : Assignment := { asgC with completed_at := some 3, status := "completed" }

def asgE : Assignment := { asgC with completed_at := some 4, status := "completed" }

def annD : Annotation :=
  { id := 2, image_id := "000000", user_id := 0, assignment_id := 1,
    question := some "What is shown?", answer := some "A cat",
    is_approved := true, is_reported := false, annotation_pass := 1,
    annotated_at := 3 }

def annE : Annotation := { annD with annotated_at := 4 }

def req1 : AnnotateReq :=
  { image_id := "000000", assignment_id := 1, question := "What is shown?",
    answer := "A cat", is_rejected := false }

def reqEmpty : AnnotateReq :=
  { image_id := "000000", assignment_id := 1, question := "   ", answer := "",
    is_rejected := false }

def dbA : DB := { images := [imgA0], users := [], assignments := [],
                  annotations := [], ctr := 0, now := 1 }

def dbB : DB := { dbA with users := [alice], ctr := 1, now := 2 }

def dbC : DB := { dbB with assignments := [asgC], ctr := 2, now := 3 }

def dbD : DB := { images := [imgA1], users := [alice], assignments := [asgD],
                  annotations := [annD], ctr := 3, now := 4 }

def dbE : DB := { dbD with assignments := [asgE], annotations := [annE], now := 5 }

/-- Result of reporting the already-annotated assignment of dbD. -/
def annF : Annotation :=
  { annD with is_reported := true, is_approved := false, annotated_at := 4 }

def dbF : DB :=
  { dbD with
    assignments := [asgE],
    annotations := [annF],
    now := 5 }

lemma chainStep1 : load_images_from_json (SeedFile.doc seedDoc1) initDB = .ok dbA := by
  decide

lemma chainStep2 : admin_create_user "alice" "annotator" dbA = dbB := by decide

lemma chainStep3 : admin_create_assignments 0 5 dbB = .ok (dbC, 1) := by decide

lemma chainStep4 : save_annotation 0 req1 dbC = .ok dbD := by decide

lemma chainStep5 : save_annotation 0 req1 dbD = .ok dbE := by decide

lemma reach_dbA : Reachable dbA :=
  Relation.ReflTransGen.single (Step.load (SeedFile.doc seedDoc1) initDB dbA chainStep1)

lemma reach_dbB : Reachable dbB :=
  reach_dbA.tail (Step.createUser "alice" "annotator" dbA dbB chainStep2)

lemma reach_dbC : Reachable dbC :=
  reach_dbB.tail (Step.bulkAssign 0 5 dbB dbC 1 chainStep3)

lemma reach_dbD : Reachable dbD :=
  reach_dbC.tail (Step.annotate 0 req1 dbC dbD chainStep4)

lemma reach_dbE : Reachable dbE :=
  reach_dbD.tail (Step.annotate 0 req1 dbD dbE chainStep5)

/-- A state holding one rejected annotation, for the export witness. -/
def annRej : Annotation :=
  { id := 5, image_id := "000000", user_id := 0, assignment_id := 1,
    question := none, answer := none, is_approved := false, is_reported := false,
    annotation_pass := 1, annotated_at := 3 }

def dbR : DB := { images := [imgA1], users := [alice], assignments := [asgD],
                  annotations := [annRej], ctr := 6, now := 4 }

def rowR : ExportRow :=
  { image_id := "000000", image_url := "http://example.com/a.jpg",
    image_path := "http://example.com/a.jpg", source := "flickr",
    question := none, answer := none, is_approved := false, is_reported := false,
    annotated_at := 3, username := "alice", annotation_pass := 1 }

/-! ## Witnesses -/

theorem submit_idempotent_witness :
    Reachable dbC
    ∧ save_annotation 0 req1 dbC = .ok dbD
    ∧ save_annotation 0 req1 dbD = .ok dbE
    ∧ dbE.annotations.countP (fun an => an.assignment_id == req1.assignment_id) = 1
    ∧ dbE.images = dbD.images :=
  ⟨reach_dbC, chainStep4, chainStep5,
    (submit_idempotent dbC dbD dbE 0 req1 reach_dbC chainStep4 chainStep5).1,
    (submit_idempotent dbC dbD dbE 0 req1 reach_dbC chainStep4 chainStep5).2.2.2.1⟩

theorem bulk_assign_witness :
    Reachable dbB
    ∧ admin_create_assignments 0 5 dbB = .ok (dbC, 1)
    ∧ 1 = min 5 (unassignedImages dbB).length
    ∧ dbC.assignments.length = dbB.assignments.length + 1 :=
  ⟨reach_dbB, chainStep3,
    (bulk_assign_spec dbB dbC 0 5 1 reach_dbB chainStep3).1,
    (bulk_assign_spec dbB dbC 0 5 1 reach_dbB chainStep3).2.1⟩

theorem progress_percentage_bounds_witness :
    0 ≤ (get_stats dbD adminUser).progress_percentage
    ∧ (get_stats dbD adminUser).progress_percentage ≤ 100 :=
  ⟨(progress_percentage_bounds dbD adminUser reach_dbD).1,
    (progress_percentage_bounds dbD adminUser reach_dbD).2.1⟩

theorem ownership_check_witness :
    report_image 1 (ReportReq.mk "000000" 1) dbD = .error .notFound :=
  ((ownership_check_behaviour dbD 1 (ReportReq.mk "000000" 1)).1 (by decide)).1

theorem next_image_earliest_witness :
    get_next_image 0 dbC = some asgC
    ∧ asgC.user_id = 0 ∧ asgC.status = "pending" := by
  have h := (next_image_earliest dbC 0 reach_dbC).1 asgC (by decide)
  exact ⟨by decide, h.1, h.2.1⟩

theorem annotate_payload_witness :
    save_annotation 0 reqEmpty dbC = .error .invalidPayload :=
  (annotate_payload_validation dbC 0 reqEmpty asgC (by decide)).1.mpr
    ⟨by decide, rfl⟩

theorem rejected_export_witness :
    rowR ∈ admin_download_annotations "rejected" none dbR
    ∧ rowR.is_reported = false ∧ rowR.is_approved = false := by
  have hmem : rowR ∈ admin_download_annotations "rejected" none dbR := by decide
  have h := rejected_export_excludes_reported dbR none rowR hmem
  exact ⟨hmem, h.1, h.2⟩

theorem load_behaviour_witness :
    load_images_from_json SeedFile.absent initDB = .ok { initDB with now := initDB.now + 1 }
    ∧ load_images_from_json SeedFile.malformed initDB = .error .malformedDocument
    ∧ dbA.images.map (fun im => im.id) = (List.range seedDoc1.images.length).map pad6 :=
  ⟨(load_behaviour initDB SeedFile.absent).1 rfl,
    (load_behaviour initDB SeedFile.malformed).2.2.1 rfl,
    (load_behaviour initDB (SeedFile.doc seedDoc1)).2.2.2.2 seedDoc1 dbA rfl chainStep1⟩

theorem annotation_trichotomy_witness :
    ¬(annE.is_approved = true ∧ annE.is_reported = true)
    ∧ (adminStats dbE).approved_images + (adminStats dbE).rejected_images
        + (adminStats dbE).reported_images = dbE.annotations.length :=
  ⟨(annotation_trichotomy dbE reach_dbE).1 annE (by decide),
    (annotation_trichotomy dbE reach_dbE).2⟩

theorem report_preserves_content_witness :
    report_image 0 (ReportReq.mk "000000" 1) dbD = .ok dbF
    ∧ dbF.annotations.find? (fun an => an.assignment_id == asgD.id) =
        some { annD with
               is_reported := true, is_approved := false, annotated_at := dbD.now }
    ∧ dbF.images = dbD.images := by
  have hok : report_image 0 (ReportReq.mk "000000" 1) dbD = .ok dbF := by decide
  have h := report_preserves_content dbD 0 (ReportReq.mk "000000" 1) asgD annD
    (by decide) (by decide) dbF hok
  exact ⟨hok, h.1, h.2.1⟩

end SingleImageWebsite
